import Mathlib

/-!
Verification development for the PusH distributed actor runtime
(`push/lib/node_event_loop.py`, `push/lib/messages.py`).

The node event loop, its message catalogue, the future/wait protocol and
the send/get operations are embedded as executable Lean definitions over
explicit state.  Device-resident tensors are modelled as lists of
integer-valued parameters with optional gradients; handlers are abstract
functions supplied by the environment.  Python dictionaries become
association lists, `mp.Queue`s become lists (front = next to be taken),
and a raised exception becomes an error value threaded through results.

Files of the repository that are referenced but absent from the sources
(`push/lib/context_switch.py`, `push/lib/utils.py`, `push/particle.py`,
`push/pfuture.py`) are modelled from the spec; each such definition says
so in its doc comment.
-/

namespace PusH

abbrev Pid := Nat
abbrev Fid := Nat
abbrev Rank := Nat
abbrev Device := Nat

/-- Exception values that the Python runtime can raise in the embedded
fragment: dictionary lookups on absent keys (`KeyError`), references to
unbound local variables (`NameError`), attribute access on `None`
(`AttributeError`), and arbitrary exceptions escaping user handlers or
compute units. -/
inductive PErr where
  | keyError
  | nameError
  | attributeError
  | handlerError (code : Int)
deriving DecidableEq, Repr

/-- An argument / result value: a payload together with the device it
currently resides on (`none` means host-resident, i.e. CPU / detached). -/
structure Arg where
  value : Int
  device : Option Device
deriving DecidableEq, Repr

/-- Modelled from the spec: `push/lib/utils.py` is absent from the
sources.  `detach_to_device(device, arg)` detaches a value and moves it
onto the given device. -/
def detach_to_device (d : Device) (a : Arg) : Arg := ⟨a.value, some d⟩

/-- Modelled from the spec: `push/lib/utils.py` is absent from the
sources.  `detach_to_cpu(arg)` detaches a value to host-resident (CPU)
form, the only form that may cross a process boundary. -/
def detach_to_cpu (a : Arg) : Arg := ⟨a.value, none⟩

/-- One parameter of a module: its value and an optional gradient
buffer. -/
structure Param where
  value : Int
  grad : Option Int
deriving DecidableEq, Repr

/-- A module (an actor's computational resource) is its list of
parameters. -/
abbrev Module := List Param

/-- Modelled from the spec: `push/particle.py` is absent from the
sources.  The transient actor view handed to a handler: the particle's
device, identity, context-switched module and user state (the event-loop
back reference is implicit). -/
structure Particle where
  device : Device
  pid : Pid
  module : Module
  state : Int
deriving DecidableEq, Repr

/-- A handler registered in a particle's receive table.  Handlers are
environment-supplied functions of the transient particle view and the
argument list; a `.error` models an exception escaping the handler. -/
abbrev Handler := Particle → List Arg → Except PErr Arg

/-- Modelled from the spec: `push/pfuture.py` is absent from the
sources.  A future handle: owner pid, target pid and future id. -/
structure PFuture where
  pid_curr : Pid
  pid : Pid
  fid : Fid
deriving DecidableEq, Repr

/-! ### Association lists (Python dictionaries) -/

def alookup {α β : Type} [DecidableEq α] : List (α × β) → α → Option β
  | [], _ => none
  | (k, v) :: rest, k' => if k = k' then some v else alookup rest k'

def aset {α β : Type} [DecidableEq α] : List (α × β) → α → β → List (α × β)
  | [], k, v => [(k, v)]
  | (k0, v0) :: rest, k, v =>
    if k0 = k then (k, v) :: rest else (k0, v0) :: aset rest k v

def aremove {α β : Type} [DecidableEq α] : List (α × β) → α → List (α × β)
  | [], _ => []
  | (k0, v0) :: rest, k =>
    if k0 = k then aremove rest k else (k0, v0) :: aremove rest k

theorem alookup_aset_self {α β : Type} [DecidableEq α]
    (l : List (α × β)) (k : α) (v : β) : alookup (aset l k v) k = some v := by
  induction l with
  | nil => simp [aset, alookup]
  | cons p rest ih =>
    by_cases h : p.1 = k
    · simp [aset, h, alookup]
    · simp [aset, h, alookup, ih]

theorem alookup_aset_ne {α β : Type} [DecidableEq α]
    (l : List (α × β)) (k k' : α) (v : β) (h : k ≠ k') :
    alookup (aset l k v) k' = alookup l k' := by
  induction l with
  | nil => simp [aset, alookup, h]
  | cons p rest ih =>
    by_cases hp : p.1 = k
    · simp [aset, hp, alookup, h]
    · simp [aset, hp, alookup, ih]

theorem alookup_aremove_self {α β : Type} [DecidableEq α]
    (l : List (α × β)) (k : α) : alookup (aremove l k) k = none := by
  induction l with
  | nil => simp [aremove, alookup]
  | cons p rest ih =>
    by_cases hp : p.1 = k
    · simp [aremove, hp, ih]
    · simp [aremove, hp, alookup, ih]

theorem alookup_aremove_ne {α β : Type} [DecidableEq α]
    (l : List (α × β)) (k k' : α) (h : k ≠ k') :
    alookup (aremove l k) k' = alookup l k' := by
  induction l with
  | nil => simp [aremove]
  | cons p rest ih =>
    by_cases hp : p.1 = k
    · subst hp
      simp [aremove, alookup, fun hq : p.1 = k' => h hq, ih]
    · simp [aremove, hp, alookup, ih]

theorem alookup_append_of_none {α β : Type} [DecidableEq α]
    (l l2 : List (α × β)) (k : α) (h : alookup l k = none) :
    alookup (l ++ l2) k = alookup l2 k := by
  induction l with
  | nil => simp
  | cons p rest ih =>
    by_cases hp : p.1 = k
    · simp [alookup, hp] at h
    · simp [alookup, hp] at h ⊢
      exact ih h

/-! ### Particle cache

Modelled from the spec: `push/lib/context_switch.py` (the `ParticleCache`
used by the event loop) is absent from the sources.  Following §4.1 of
the spec, a cache is a bounded per-device store of resident modules with
pin/evict/create/read semantics; eviction is least-recently-released
among unpinned entries, and evicted resources are re-creatable from the
backing store.  `entries` is kept in recency order, oldest first. -/

structure CEntry where
  module : Module
  pinned : Bool
deriving DecidableEq, Repr

structure Cache where
  dflt : Module
  capacity : Nat
  entries : List (Pid × CEntry)
  store : List (Pid × Module)
deriving Repr

/-- Modelled from the spec: pick the oldest unpinned entry; return its
pid, module and the remaining entries. -/
def Cache.evictOldestUnpinned : List (Pid × CEntry) → Option (Pid × Module × List (Pid × CEntry))
  | [] => none
  | (p, e) :: rest =>
    if e.pinned then
      match Cache.evictOldestUnpinned rest with
      | none => none
      | some (q, m, rest') => some (q, m, (p, e) :: rest')
    else some (p, e.module, rest)

/-- Modelled from the spec: non-blocking read.  A resident entry is
returned (pinning it if requested); a missing entry is recreated from
the backing store when capacity allows, evicting the oldest unpinned
entry when full; with every entry pinned the read reports absence. -/
def Cache.tryRead (c : Cache) (pid : Pid) (pin : Bool) : Option (Module × Cache) :=
  match alookup c.entries pid with
  | some e =>
    some (e.module, { c with entries := aset c.entries pid ⟨e.module, e.pinned || pin⟩ })
  | none =>
    if c.entries.length < c.capacity then
      let m := (alookup c.store pid).getD c.dflt
      some (m, { c with entries := c.entries ++ [(pid, ⟨m, pin⟩)],
                        store := aset c.store pid m })
    else
      match Cache.evictOldestUnpinned c.entries with
      | none => none
      | some (q, qm, rest) =>
        let c1 : Cache := { c with entries := rest, store := aset c.store q qm }
        let m := (alookup c1.store pid).getD c1.dflt
        some (m, { c1 with entries := c1.entries ++ [(pid, ⟨m, pin⟩)],
                           store := aset c1.store pid m })

/-- Modelled from the spec: blocking read, used on the view cache. -/
def Cache.read (c : Cache) (pid : Pid) : Option (Module × Cache) :=
  c.tryRead pid false

/-- Modelled from the spec: release unpins the entry and marks it most
recently used. -/
def Cache.release (c : Cache) (pid : Pid) : Cache :=
  match alookup c.entries pid with
  | none => c
  | some e =>
    { c with entries := aremove c.entries pid ++ [(pid, ⟨e.module, false⟩)],
             store := aset c.store pid e.module }

def Cache.contains (c : Cache) (pid : Pid) : Bool :=
  (alookup c.entries pid).isSome || (alookup c.store pid).isSome

/-- Modelled from the spec: create a fresh resource for `pid`; fails if
the id is already present. -/
def Cache.create (c : Cache) (pid : Pid) : Option (Module × Cache) :=
  if c.contains pid then none
  else some (c.dflt, { c with entries := c.entries ++ [(pid, ⟨c.dflt, false⟩)],
                              store := aset c.store pid c.dflt })

/-- Overwrite the module stored for `pid` (an in-place parameter
mutation, e.g. `param.copy_` or an optimizer step). -/
def Cache.writeModule (c : Cache) (pid : Pid) (m : Module) : Cache :=
  match alookup c.entries pid with
  | some e => { c with entries := aset c.entries pid ⟨m, e.pinned⟩,
                       store := aset c.store pid m }
  | none => { c with store := aset c.store pid m }

/-! ### Messages (`push/lib/messages.py`) -/

/-- The message catalogue, one constructor per `MSG` subclass that the
event loop can receive or emit.  Registration and init messages carry
actual handler functions, as in the source. -/
inductive Msg where
  | NodeEvtLoopCleanupMSG
  | NELBroadcastParticlesMSG (particle_to_device : List (Pid × Device))
  | NELBroadcastParticlesAckMSG
  | NELSaveModel (pid_fid : Pid × Fid)
  | NELSaveModelAckPDMSG (pid_fid : Pid × Fid)
  | ReceiveParticleInitPDMSG (device : Device) (pid : Pid)
      (receive : List (String × Handler)) (state : Int)
  | ReceiveParticleInitAckPDMSG
  | ReceiveRegisterPDMSG (pid : Pid) (msg : String) (fn : Handler)
  | ReceiveRegisterAckPDMSG
  | ReceiveFuncPDMSG (pid_fid : Pid × Fid) (pid_to : Pid) (msg : String) (args : List Arg)
  | ReceiveFuncAckPDMSG (pid_fid : Pid × Fid) (result : Arg)
  | ReceiveParametersPDMSG (pid_fid : Pid × Fid) (pid : Pid)
  | ReceiveParametersAckPDMSG (pid_fid : Pid × Fid) (params : List Int)
  | ReceiveFuncMSG (pid_fid : Pid × Fid) (pid : Pid) (msg_name : String) (args : List Arg)
  | ReceiveGetMSG (pid_fid : Fid) (pid_caller : Pid) (pid : Pid)
  | ReceiveGetAckMSG (fid : Fid) (pid : Pid) (params : List Int)
      (params_grad : List (Option Int))

/-- An item on the outbound queue to the coordinator: either an
acknowledgment message or a forwarded exception value. -/
inductive OutItem where
  | msg (m : Msg)
  | err (e : PErr)

/-- A stored future result: a plain value, a lazy `ParticleView` over a
view cache (identified by device and pid), or Python's `None`. -/
inductive Res where
  | val (a : Arg)
  | view (device : Device) (pid : Pid)
  | rnone
deriving DecidableEq, Repr

/-! ### Node event loop state (`NodeEventLoop.__init__`) -/

/-- The per-process event-loop state.  The inbound queue is passed
separately to the functions that consume it; `in_queues` are the
point-to-point queues toward other ranks and `out_queue` is the direct
channel to the coordinator.  `forwardFn` is the environment-supplied
behaviour of `module.forward` (the numeric computation is outside the
core). -/
structure NEL where
  rank : Rank
  out_queue : List OutItem
  in_queues : List (Rank × List Msg)
  particle_to_rank : List (Pid × Rank)
  particle_to_device : List (Pid × Device)
  particle_to_state : List (Pid × Int)
  hooks : List (Pid × List (String × Handler))
  device_to_pthread : List (Device × Pid)
  particle_caches : List (Device × Cache)
  view_caches : List (Device × Cache)
  future_id : Fid
  particle_to_futures : List (Pid × List Fid)
  future_to_particle : List (Fid × Pid)
  results : List (Fid × Res)
  forwardFn : Module → Arg → List Arg → Except PErr Arg

def cacheOf (st : NEL) (d : Device) : Option Cache :=
  alookup st.particle_caches d

def setCache (st : NEL) (d : Device) (c : Cache) : NEL :=
  { st with particle_caches := aset st.particle_caches d c }

def viewCacheOf (st : NEL) (d : Device) : Option Cache :=
  alookup st.view_caches d

def setViewCache (st : NEL) (d : Device) (c : Cache) : NEL :=
  { st with view_caches := aset st.view_caches d c }

/-! ### Context switching (`NodeEventLoop._wait_particle_thread`,
`NodeEventLoop._context_switch_module`) -/

/-- `_wait_particle_thread`: if the particle's device has a recorded
active operation, retire it and release its particle's cache entry. -/
def waitParticleThread (st : NEL) (pid : Pid) : NEL × Except PErr Unit :=
  match alookup st.particle_to_device pid with
  | none => (st, .error .keyError)
  | some pidDev =>
    match alookup st.device_to_pthread pidDev with
    | none => (st, .ok ())
    | some apid =>
      let st1 := { st with device_to_pthread := aremove st.device_to_pthread pidDev }
      match alookup st1.particle_to_device apid with
      | none => (st1, .error .keyError)
      | some adev =>
        match cacheOf st1 adev with
        | none => (st1, .error .keyError)
        | some c => (setCache st1 adev (c.release apid), .ok ())

/-- The reload loop of `_context_switch_module`: while the read fails,
pop the oldest (device, particle) pair from `device_to_pthread`, release
it, and retry.  `popitem` on an empty ordered dict raises `KeyError`;
the fuel argument is the length of `device_to_pthread`, which the loop
strictly consumes. -/
def cswLoop (pid : Pid) (pidDev : Device) (pin : Bool) :
    Nat → NEL → NEL × Except PErr Module
  | 0, st => (st, .error .keyError)
  | n + 1, st =>
    match st.device_to_pthread with
    | [] => (st, .error .keyError)
    | (_dev, apid) :: rest =>
      let st1 := { st with device_to_pthread := rest }
      match alookup st1.particle_to_device apid with
      | none => (st1, .error .keyError)
      | some adev =>
        match cacheOf st1 adev with
        | none => (st1, .error .keyError)
        | some c =>
          let st2 := setCache st1 adev (c.release apid)
          match cacheOf st2 pidDev with
          | none => (st2, .error .keyError)
          | some cp =>
            match cp.tryRead pid pin with
            | some (m, cp') => (setCache st2 pidDev cp', .ok m)
            | none => cswLoop pid pidDev pin n st2

/-- `_context_switch_module`: retire any active operation on the
particle's device, then read (and on misses evict-and-retry until the
read succeeds) the particle's module from its device cache. -/
def contextSwitchModule (st : NEL) (pid : Pid) (pin : Bool) : NEL × Except PErr Module :=
  match alookup st.particle_to_device pid with
  | none => (st, .error .keyError)
  | some pidDev =>
    match waitParticleThread st pid with
    | (st1, .error e) => (st1, .error e)
    | (st1, .ok ()) =>
      match cacheOf st1 pidDev with
      | none => (st1, .error .keyError)
      | some c =>
        match c.tryRead pid pin with
        | some (m, c') => (setCache st1 pidDev c', .ok m)
        | none => cswLoop pid pidDev pin st1.device_to_pthread.length st1

/-! ### Dispatch (`NodeEventLoop._dispatch`) -/

/-- Outcome of dispatching one message: continue the loop, stop it
(cleanup message), or an exception propagating out of `_dispatch`. -/
inductive DOut where
  | cont
  | halt
  | exc (e : PErr)
deriving Repr

/-- The body of the `NodeEvtLoopCleanupMSG` arm of `_dispatch`: it only
returns `False`. -/
def cleanupStep (st : NEL) : NEL × Bool := (st, false)

/-- `NodeEventLoop._cleanup`: dispatches a cleanup message and discards
the returned flag, so it leaves the state unchanged. -/
def nelCleanup (st : NEL) : NEL := (cleanupStep st).1

/-- `NodeEventLoop._dispatch`.  Each arm follows the source order of
operations, including its failure points: the `ReceiveFuncMSG` arm reads
the local variable `module` before any assignment to it (`NameError`),
and the `ReceiveGetMSG` arm passes the unbound name `pid` to the context
switch (`NameError`). -/
def nelDispatch (st : NEL) (m : Msg) : NEL × DOut :=
  match m with
  | .ReceiveFuncMSG _pid_fid pid msg_name _args =>
    match alookup st.hooks pid with
    | none => (st, .exc .keyError)
    | some tbl =>
      match alookup tbl msg_name with
      | none => (st, .cont)
      | some _fn =>
        match alookup st.particle_to_state pid with
        | none => (st, .exc .keyError)
        | some _state =>
          match alookup st.particle_to_device pid with
          | none => (st, .exc .keyError)
          | some _pidDev =>
            match contextSwitchModule st pid false with
            | (st1, .error e) => (st1, .exc e)
            | (st1, .ok _m) =>
              (st1, .exc .nameError)
  | .ReceiveGetMSG _fid _pid_caller pid =>
    match alookup st.particle_to_device pid with
    | none => (st, .exc .keyError)
    | some _pidDev => (st, .exc .nameError)
  | .ReceiveParametersPDMSG pid_fid pid =>
    match alookup st.particle_to_device pid with
    | none => (st, .exc .keyError)
    | some _pidDev =>
      match contextSwitchModule st pid false with
      | (st1, .error e) => (st1, .exc e)
      | (st1, .ok mod) =>
        ({ st1 with out_queue := st1.out_queue ++
            [.msg (.ReceiveParametersAckPDMSG pid_fid (mod.map Param.value))] }, .cont)
  | .ReceiveRegisterPDMSG pid msgName fn =>
    match alookup st.hooks pid with
    | none => (st, .exc .keyError)
    | some tbl =>
      ({ st with hooks := aset st.hooks pid (aset tbl msgName fn),
                 out_queue := st.out_queue ++ [.msg .ReceiveRegisterAckPDMSG] }, .cont)
  | .ReceiveParticleInitPDMSG device pid receive state =>
    let st1 := { st with particle_to_rank := aset st.particle_to_rank pid st.rank,
                         particle_to_device := aset st.particle_to_device pid device }
    match cacheOf st1 device with
    | none => (st1, .exc .keyError)
    | some c =>
      match c.create pid with
      | none => (st1, .exc .keyError)
      | some (_mod, c') =>
        let st2 := setCache st1 device c'
        let st3 := { st2 with particle_to_state := aset st2.particle_to_state pid state,
                              hooks := aset st2.hooks pid receive,
                              particle_to_futures := aset st2.particle_to_futures pid [] }
        ({ st3 with out_queue := st3.out_queue ++ [.msg .ReceiveParticleInitAckPDMSG] }, .cont)
  | .NELSaveModel pid_fid =>
    ({ st with out_queue := st.out_queue ++ [.msg (.NELSaveModelAckPDMSG pid_fid)] }, .cont)
  | .NELBroadcastParticlesMSG p2d =>
    ({ st with particle_to_device := p2d,
               out_queue := st.out_queue ++ [.msg .NELBroadcastParticlesAckMSG] }, .cont)
  | .NodeEvtLoopCleanupMSG =>
    let (st1, go) := cleanupStep st
    (st1, if go then .cont else .halt)
  | .ReceiveFuncPDMSG pid_fid pid_to msgName args =>
    match alookup st.hooks pid_to with
    | none => (st, .exc .keyError)
    | some tbl =>
      match alookup tbl msgName with
      | none => (st, .cont)
      | some fn =>
        match alookup st.particle_to_state pid_to with
        | none => (st, .exc .keyError)
        | some state =>
          match alookup st.particle_to_device pid_to with
          | none => (st, .exc .keyError)
          | some pidDev =>
            match contextSwitchModule st pid_to false with
            | (st1, .error e) => (st1, .exc e)
            | (st1, .ok mod) =>
              match fn ⟨pidDev, pid_to, mod, state⟩ args with
              | .error e =>
                let st2 := { st1 with out_queue := st1.out_queue ++ [.err e] }
                (nelCleanup st2, .exc e)
              | .ok y =>
                ({ st1 with out_queue := st1.out_queue ++
                    [.msg (.ReceiveFuncAckPDMSG pid_fid y)] }, .cont)
  | _ => (st, .cont)

/-- `NodeEventLoop._start_event_loop`: pull messages one at a time and
dispatch until a cleanup message halts the loop or an exception escapes
(the returned `Option PErr` is the escaping exception, if any). -/
def startEventLoop : NEL → List Msg → NEL × Option PErr
  | st, [] => (st, none)
  | st, m :: ms =>
    match nelDispatch st m with
    | (st1, .cont) => startEventLoop st1 ms
    | (st1, .halt) => (st1, none)
    | (st1, .exc e) => (st1, some e)

/-! ### Remote-get acknowledgments
(`NodeEventLoop._dispatch_receive_get_ack`) -/

/-- The parameter copy of `_dispatch_receive_get_ack`: the three-way
`zip` over the view module, the received host values and the received
gradients truncates at the shortest; gradients overwrite only when a
received gradient is present. -/
def copyAck : Module → List Int → List (Option Int) → Module
  | [], _, _ => []
  | ds, [], _ => ds
  | ds, _, [] => ds
  | d :: ds, p :: ps, g :: gs =>
    { value := p, grad := match g with | some x => some x | none => d.grad } ::
      copyAck ds ps gs

/-- `_dispatch_receive_get_ack`: materialize (create or read) a view
cache entry for the remote particle, overwrite its parameters with the
received host-resident snapshot, and record a lazy view as the future's
result. -/
def dispatchReceiveGetAck (st : NEL) (fid : Fid) (pid : Pid)
    (params : List Int) (params_grad : List (Option Int)) : NEL × Except PErr Unit :=
  match alookup st.particle_to_device pid with
  | none => (st, .error .keyError)
  | some pidDev =>
    match viewCacheOf st pidDev with
    | none => (st, .error .keyError)
    | some c =>
      match (if c.contains pid then c.read pid else c.create pid) with
      | none => (st, .error .attributeError)
      | some (mod, c1) =>
        let mod' := copyAck mod params params_grad
        let c2 := c1.writeModule pid mod'
        let st1 := setViewCache st pidDev c2
        ({ st1 with results := aset st1.results fid (.view pidDev pid) }, .ok ())

/-! ### Future bookkeeping (`_create_future_id`, `_register_future`) -/

/-- `NodeEventLoop._create_future_id`: return the current counter and
increment it. -/
def createFutureId (st : NEL) : Fid × NEL :=
  (st.future_id, { st with future_id := st.future_id + 1 })

/-- The future ids produced by `n` successive calls to
`_create_future_id` on one event loop instance. -/
def genFutureIds : NEL → Nat → List Fid
  | _, 0 => []
  | st, n + 1 =>
    let (fid, st') := createFutureId st
    fid :: genFutureIds st' n

/-- `NodeEventLoop._register_future`: add the future to the owning
particle's pending set (a `KeyError` if the particle is unknown) and
record the owner. -/
def registerFuture (st : NEL) (pid : Pid) (fid : Fid) : NEL × Except PErr Unit :=
  match alookup st.particle_to_futures pid with
  | none => (st, .error .keyError)
  | some fids =>
    let newFids := if fid ∈ fids then fids else fids ++ [fid]
    ({ st with particle_to_futures := aset st.particle_to_futures pid newFids,
               future_to_particle := aset st.future_to_particle fid pid }, .ok ())

/-! ### Wait (`NodeEventLoop._wait`) -/

/-- `check_results` inside `_wait`: if the result is recorded, pop it,
pop the owning particle, and remove the future from the particle's
pending set (absent entries raise `KeyError`, as `dict.pop` and
`set.remove` do). -/
def checkResults (st : NEL) (fid : Fid) : Except PErr (Option (Res × NEL)) :=
  match alookup st.results fid with
  | none => .ok none
  | some res =>
    let st1 := { st with results := aremove st.results fid }
    match alookup st1.future_to_particle fid with
    | none => .error .keyError
    | some pid =>
      let st2 := { st1 with future_to_particle := aremove st1.future_to_particle fid }
      match alookup st2.particle_to_futures pid with
      | none => .error .keyError
      | some fids =>
        if fid ∈ fids then
          let newFids := fids.erase fid
          .ok (some (res, { st2 with particle_to_futures := aset st2.particle_to_futures pid newFids }))
        else .error .keyError

/-- Message kinds that `_wait` buffers instead of dispatching:
`ReceiveFuncMSG` and `ReceiveFuncPDMSG`. -/
def isBufferedMsg : Msg → Bool
  | .ReceiveFuncMSG _ _ _ _ => true
  | .ReceiveFuncPDMSG _ _ _ _ => true
  | _ => false

def isGetAckMsg : Msg → Bool
  | .ReceiveGetAckMSG _ _ _ _ => true
  | _ => false

/-- The pump loop of `_wait`, consuming the inbound queue after the
initial failed result check: a remote-get acknowledgment is handled
inline and the result check retried; `ReceiveFuncMSG` / `ReceiveFuncPDMSG`
messages are appended to the buffer; everything else goes through
`_dispatch` (its returned flag is discarded).  On success it returns the
result, the buffered messages, and the unconsumed remainder of the
queue; an exhausted queue (`.ok none`) models the Python call blocking
forever on `in_queue.get()`. -/
def waitGo (fid : Fid) :
    List Msg → NEL → List Msg → NEL × Except PErr (Option (Res × List Msg × List Msg))
  | [], st, _acc => (st, .ok none)
  | m :: rest, st, acc =>
    match m with
    | .ReceiveGetAckMSG gfid gpid ps gs =>
      match dispatchReceiveGetAck st gfid gpid ps gs with
      | (st1, .error e) => (st1, .error e)
      | (st1, .ok ()) =>
        match checkResults st1 fid with
        | .error e => (st1, .error e)
        | .ok none => waitGo fid rest st1 acc
        | .ok (some (res, st2)) => (st2, .ok (some (res, acc, rest)))
    | .ReceiveFuncMSG a b c d => waitGo fid rest st (acc ++ [.ReceiveFuncMSG a b c d])
    | .ReceiveFuncPDMSG a b c d => waitGo fid rest st (acc ++ [.ReceiveFuncPDMSG a b c d])
    | other =>
      match nelDispatch st other with
      | (st1, .exc e) => (st1, .error e)
      | (st1, _) => waitGo fid rest st1 acc

/-- `NodeEventLoop._wait` up to the replay point: the initial result
check followed by the pump loop. -/
def nelWait (fid : Fid) (st : NEL) (q : List Msg) :
    NEL × Except PErr (Option (Res × List Msg × List Msg)) :=
  match checkResults st fid with
  | .error e => (st, .error e)
  | .ok (some (res, st1)) => (st1, .ok (some (res, [], q)))
  | .ok none => waitGo fid q st []

/-- The replay loop at the end of `_wait`: dispatch the buffered
messages in order; an exception raised by a dispatch aborts the replay
and propagates. -/
def dispatchList : NEL → List Msg → NEL × Option PErr
  | st, [] => (st, none)
  | st, m :: ms =>
    match nelDispatch st m with
    | (st1, .exc e) => (st1, some e)
    | (st1, _) => dispatchList st1 ms

/-- `NodeEventLoop._wait` in full: pump until the result is obtained,
then replay the buffered messages through `_dispatch` in original order
and return the result (paired with the unconsumed queue remainder). -/
def nelWaitFull (fid : Fid) (st : NEL) (q : List Msg) :
    NEL × Except PErr (Option (Res × List Msg)) :=
  match nelWait fid st q with
  | (st1, .error e) => (st1, .error e)
  | (st1, .ok none) => (st1, .ok none)
  | (st1, .ok (some (res, buf, rest))) =>
    match dispatchList st1 buf with
    | (st2, some e) => (st2, .error e)
    | (st2, none) => (st2, .ok (some (res, rest)))

/-! ### Send (`NodeEventLoop.send`) -/

/-- The state of the event loop after `send`/`get`/`forward` have drawn
a fresh future id and registered it (the outcome flag of the
registration is discarded here; `nelSend` itself propagates it). -/
def sendReg (st : NEL) (pid_curr : Pid) : NEL :=
  let (fid, st1) := createFutureId st
  (registerFuture st1 pid_curr fid).1

/-- `NodeEventLoop.send`.  Same-rank: context-switch in the target,
look up the handler (an unchecked dictionary access), run it inline on
device-transferred arguments, record the result under the new future id,
then context-switch the sender's own module back in and store it on the
sending particle.  Cross-rank: detach every argument to host-resident
form and enqueue a single `ReceiveFuncMSG` on the target rank's queue.
Handler exceptions are forwarded on the outbound queue and re-raised. -/
def nelSend (st : NEL) (send_particle : Particle) (pid_curr pid : Pid)
    (msg_name : String) (args : List Arg) : NEL × Except PErr (Particle × PFuture) :=
  let (fid, st0) := createFutureId st
  match registerFuture st0 pid_curr fid with
  | (stR, .error e) => (stR, .error e)
  | (stR, .ok ()) =>
    match alookup stR.particle_to_rank pid_curr with
    | none => (stR, .error .keyError)
    | some rank_id_curr =>
      match alookup stR.particle_to_rank pid with
      | none => (stR, .error .keyError)
      | some rank_id =>
        if rank_id = rank_id_curr then
          match contextSwitchModule stR pid false with
          | (st1, .error e) => (st1, .error e)
          | (st1, .ok mod) =>
            match alookup st1.hooks pid with
            | none => (st1, .error .keyError)
            | some tbl =>
              match alookup tbl msg_name with
              | none => (st1, .error .keyError)
              | some fn =>
                match alookup st1.particle_to_state pid with
                | none => (st1, .error .keyError)
                | some state =>
                  match alookup st1.particle_to_device pid with
                  | none => (st1, .error .keyError)
                  | some pid_device =>
                    let particle : Particle := ⟨pid_device, pid, mod, state⟩
                    let args2 := args.map (detach_to_device pid_device)
                    match fn particle args2 with
                    | .error e =>
                      let st2 := { st1 with out_queue := st1.out_queue ++ [.err e] }
                      (nelCleanup st2, .error e)
                    | .ok y =>
                      let st2 := { st1 with results := aset st1.results fid (.val y) }
                      match contextSwitchModule st2 pid_curr false with
                      | (st3, .error e) => (st3, .error e)
                      | (st3, .ok mod2) =>
                        (st3, .ok ({ send_particle with module := mod2 },
                                   ⟨pid_curr, pid, fid⟩))
        else
          let args2 := args.map detach_to_cpu
          match alookup stR.in_queues rank_id with
          | none => (stR, .error .keyError)
          | some q =>
            let newQ := q ++ [.ReceiveFuncMSG (pid_curr, fid) pid msg_name args2]
            ({ stR with in_queues := aset stR.in_queues rank_id newQ },
             .ok (send_particle, ⟨pid_curr, pid, fid⟩))

/-! ### Get (`NodeEventLoop.get`) -/

/-- The parameter copy in the same-rank arm of `get`: `param.copy_(p)`
for each zipped pair, with the gradient overwritten only when the source
gradient is present; the `zip` truncates at the shorter list and leaves
the remaining destination parameters untouched. -/
def copyParams : Module → Module → Module
  | [], _ => []
  | ds, [] => ds
  | d :: ds, s :: ss =>
    { value := s.value, grad := match s.grad with | some g => some g | none => d.grad } ::
      copyParams ds ss

/-- `NodeEventLoop.get`.  Same-rank: context-switch in the target,
create or read a view-cache entry for it on the caller's device, copy
the target's current parameter values (and present gradients) into that
entry, and record a lazy `ParticleView` over the view cache as the
future's result.  Cross-rank: enqueue a `ReceiveGetMSG` on the target
rank's queue. -/
def nelGet (st : NEL) (pid_curr pid : Pid) : NEL × Except PErr PFuture :=
  let (fid, st0) := createFutureId st
  match registerFuture st0 pid_curr fid with
  | (stR, .error e) => (stR, .error e)
  | (stR, .ok ()) =>
    match alookup stR.particle_to_rank pid_curr with
    | none => (stR, .error .keyError)
    | some rank_id_curr =>
      match alookup stR.particle_to_rank pid with
      | none => (stR, .error .keyError)
      | some rank_id =>
        if rank_id = rank_id_curr then
          match contextSwitchModule stR pid false with
          | (st1, .error e) => (st1, .error e)
          | (st1, .ok mod) =>
            match alookup st1.particle_to_device pid_curr with
            | none => (st1, .error .keyError)
            | some device_curr =>
              match viewCacheOf st1 device_curr with
              | none => (st1, .error .keyError)
              | some vc =>
                match (if vc.contains pid then vc.tryRead pid false else vc.create pid) with
                | none => (st1, .error .attributeError)
                | some (mod_on_curr, vc1) =>
                  let mod' := copyParams mod_on_curr mod
                  let vc2 := vc1.writeModule pid mod'
                  let st2 := setViewCache st1 device_curr vc2
                  let st3 := { st2 with results := aset st2.results fid (.view device_curr pid) }
                  (st3, .ok ⟨pid_curr, pid, fid⟩)
        else
          match alookup stR.in_queues rank_id with
          | none => (stR, .error .keyError)
          | some q =>
            let newQ := q ++ [.ReceiveGetMSG fid pid_curr pid]
            ({ stR with in_queues := aset stR.in_queues rank_id newQ },
             .ok ⟨pid_curr, pid, fid⟩)

/-- Modelled from the spec: `push/particle.py` (`ParticleView`) is
absent from the sources.  A `ParticleView` is a lazy read-only view
backed by a view cache; materializing it reads the current parameters
of the referenced entry. -/
def materializeView (st : NEL) (d : Device) (pid : Pid) : Option Module :=
  match viewCacheOf st d with
  | none => none
  | some c =>
    match alookup c.entries pid with
    | some e => some e.module
    | none => alookup c.store pid

/-- An in-place mutation of a particle's own resource (what a training
step or `zero_grad` does to the module held in the particle cache of the
particle's device).  It never touches any view cache. -/
def mutateResource (st : NEL) (pid : Pid) (m : Module) : NEL :=
  match alookup st.particle_to_device pid with
  | none => st
  | some d =>
    match cacheOf st d with
    | none => st
    | some c => setCache st d (c.writeModule pid m)

/-! ### Forward (`NodeEventLoop.forward`) -/

/-- `NodeEventLoop.forward`: register a future, context-switch the
module in, record the launched worker in the device's active-operation
slot, and run the worker (modelled eagerly at `t.start()`).  An
exception inside the worker is put on the outbound queue and re-raised
inside the worker thread only: it terminates the thread, not the event
loop, so `forward` still returns the future normally. -/
def nelForward (st : NEL) (pid : Pid) (x : Arg) (args : List Arg) :
    NEL × Except PErr PFuture :=
  let (fid, st0) := createFutureId st
  match registerFuture st0 pid fid with
  | (stR, .error e) => (stR, .error e)
  | (stR, .ok ()) =>
    match contextSwitchModule stR pid false with
    | (st1, .error e) => (st1, .error e)
    | (st1, .ok mod) =>
      match alookup st1.particle_to_device pid with
      | none => (st1, .error .keyError)
      | some pid_device =>
        let st2 := { st1 with device_to_pthread := aset st1.device_to_pthread pid_device pid }
        match st2.forwardFn mod x args with
        | .ok y =>
          ({ st2 with results := aset st2.results fid (.val y) }, .ok ⟨pid, pid, fid⟩)
        | .error e =>
          let st3 := { st2 with out_queue := st2.out_queue ++ [.err e] }
          (nelCleanup st3, .ok ⟨pid, pid, fid⟩)

/-! ### Frame lemmas: the context switch only touches the
active-operation slots and the particle caches. -/

/-- All event-loop fields other than `device_to_pthread` and
`particle_caches` agree between `st'` and `st`. -/
def CswFrame (st st' : NEL) : Prop :=
  st'.rank = st.rank ∧ st'.out_queue = st.out_queue ∧ st'.in_queues = st.in_queues ∧
  st'.particle_to_rank = st.particle_to_rank ∧
  st'.particle_to_device = st.particle_to_device ∧
  st'.particle_to_state = st.particle_to_state ∧ st'.hooks = st.hooks ∧
  st'.view_caches = st.view_caches ∧ st'.future_id = st.future_id ∧
  st'.particle_to_futures = st.particle_to_futures ∧
  st'.future_to_particle = st.future_to_particle ∧ st'.results = st.results ∧
  st'.forwardFn = st.forwardFn

theorem cswFrame_refl (st : NEL) : CswFrame st st := by
  refine ⟨rfl, rfl, rfl, rfl, rfl, rfl, rfl, rfl, rfl, rfl, rfl, rfl, rfl⟩

theorem cswFrame_trans {a b c : NEL} (h1 : CswFrame a b) (h2 : CswFrame b c) :
    CswFrame a c := by
  obtain ⟨e1, e2, e3, e4, e5, e6, e7, e8, e9, e10, e11, e12, e13⟩ := h2
  obtain ⟨f1, f2, f3, f4, f5, f6, f7, f8, f9, f10, f11, f12, f13⟩ := h1
  exact ⟨e1.trans f1, e2.trans f2, e3.trans f3, e4.trans f4, e5.trans f5,
    e6.trans f6, e7.trans f7, e8.trans f8, e9.trans f9, e10.trans f10,
    e11.trans f11, e12.trans f12, e13.trans f13⟩

theorem setCache_cswFrame (st : NEL) (d : Device) (c : Cache) :
    CswFrame st (setCache st d c) := by
  refine ⟨rfl, rfl, rfl, rfl, rfl, rfl, rfl, rfl, rfl, rfl, rfl, rfl, rfl⟩

theorem waitParticleThread_cswFrame (st : NEL) (pid : Pid) :
    CswFrame st (waitParticleThread st pid).1 := by
  unfold waitParticleThread
  split
  · exact cswFrame_refl st
  · split
    · exact cswFrame_refl st
    · dsimp only
      split
      · refine ⟨rfl, rfl, rfl, rfl, rfl, rfl, rfl, rfl, rfl, rfl, rfl, rfl, rfl⟩
      · split
        · refine ⟨rfl, rfl, rfl, rfl, rfl, rfl, rfl, rfl, rfl, rfl, rfl, rfl, rfl⟩
        · refine ⟨rfl, rfl, rfl, rfl, rfl, rfl, rfl, rfl, rfl, rfl, rfl, rfl, rfl⟩

theorem cswLoop_cswFrame (pid : Pid) (pidDev : Device) (pin : Bool) :
    ∀ (n : Nat) (st : NEL), CswFrame st (cswLoop pid pidDev pin n st).1 := by
  intro n
  induction n with
  | zero => intro st; exact cswFrame_refl st
  | succ k ih =>
    intro st
    unfold cswLoop
    split
    · exact cswFrame_refl st
    · dsimp only
      split
      · refine ⟨rfl, rfl, rfl, rfl, rfl, rfl, rfl, rfl, rfl, rfl, rfl, rfl, rfl⟩
      · split
        · refine ⟨rfl, rfl, rfl, rfl, rfl, rfl, rfl, rfl, rfl, rfl, rfl, rfl, rfl⟩
        · split
          · refine ⟨rfl, rfl, rfl, rfl, rfl, rfl, rfl, rfl, rfl, rfl, rfl, rfl, rfl⟩
          · split
            · refine ⟨rfl, rfl, rfl, rfl, rfl, rfl, rfl, rfl, rfl, rfl, rfl, rfl, rfl⟩
            · refine cswFrame_trans ?_ (ih _)
              exact cswFrame_trans
                ⟨rfl, rfl, rfl, rfl, rfl, rfl, rfl, rfl, rfl, rfl, rfl, rfl, rfl⟩
                (setCache_cswFrame _ _ _)

theorem alookup_append_single_self {α β : Type} [DecidableEq α]
    (l : List (α × β)) (k : α) (v : β) (h : alookup l k = none) :
    alookup (l ++ [(k, v)]) k = some v := by
  rw [alookup_append_of_none l _ k h]
  simp [alookup]

theorem evictOldestUnpinned_not_mem :
    ∀ (l : List (Pid × CEntry)) (pid q : Pid) (qm : Module) (rest : List (Pid × CEntry)),
      Cache.evictOldestUnpinned l = some (q, qm, rest) →
      alookup l pid = none → alookup rest pid = none := by
  intro l
  induction l with
  | nil =>
    intro pid q qm rest hev _h
    simp [Cache.evictOldestUnpinned] at hev
  | cons pe tl ih =>
    intro pid q qm rest hev h
    obtain ⟨pk, pent⟩ := pe
    have hp : ¬ (pk = pid) := by
      intro hc
      simp [alookup, hc] at h
    simp only [alookup, hp, if_false] at h
    unfold Cache.evictOldestUnpinned at hev
    split at hev
    · rename_i hpin
      split at hev
      · exact absurd hev (by simp)
      · rename_i q2 m2 rest2 hev2
        simp only [Option.some.injEq, Prod.mk.injEq] at hev
        obtain ⟨hq, hqm, hrest⟩ := hev
        subst hrest
        simp only [alookup, hp, if_false]
        exact ih pid q2 m2 rest2 hev2 h
    · simp only [Option.some.injEq, Prod.mk.injEq] at hev
      obtain ⟨hq, hqm, hrest⟩ := hev
      subst hrest
      exact h

theorem tryRead_entry (c : Cache) (pid : Pid) (pin : Bool) (m : Module) (c' : Cache)
    (h : c.tryRead pid pin = some (m, c')) :
    ∃ p, alookup c'.entries pid = some ⟨m, p⟩ := by
  unfold Cache.tryRead at h
  split at h
  · rename_i e he
    simp only [Option.some.injEq, Prod.mk.injEq] at h
    obtain ⟨hm, hc⟩ := h
    subst hc
    refine ⟨e.pinned || pin, ?_⟩
    rw [← hm]
    exact alookup_aset_self c.entries pid ⟨e.module, e.pinned || pin⟩
  · rename_i he
    split at h
    · simp only [Option.some.injEq, Prod.mk.injEq] at h
      obtain ⟨hm, hc⟩ := h
      subst hc
      refine ⟨pin, ?_⟩
      simp only []
      rw [← hm]
      exact alookup_append_single_self c.entries pid _ he
    · split at h
      · exact absurd h (by simp)
      · rename_i q qm rest hev
        simp only [Option.some.injEq, Prod.mk.injEq] at h
        obtain ⟨hm, hc⟩ := h
        subst hc
        refine ⟨pin, ?_⟩
        simp only []
        rw [← hm]
        exact alookup_append_single_self rest pid _
          (evictOldestUnpinned_not_mem c.entries pid q qm rest hev he)

theorem create_entry (c : Cache) (pid : Pid) (m : Module) (c' : Cache)
    (h : c.create pid = some (m, c')) :
    alookup c'.entries pid = some ⟨m, false⟩ ∧ m = c.dflt := by
  unfold Cache.create at h
  split at h
  · exact absurd h (by simp)
  · rename_i hc
    simp only [Option.some.injEq, Prod.mk.injEq] at h
    obtain ⟨hm, hcc⟩ := h
    subst hcc
    have hen : alookup c.entries pid = none := by
      unfold Cache.contains at hc
      cases hx : alookup c.entries pid with
      | none => rfl
      | some e => rw [hx] at hc; simp at hc
    constructor
    · simp only []
      rw [← hm]
      exact alookup_append_single_self c.entries pid _ hen
    · exact hm.symm

theorem cswLoop_resident (pid : Pid) (pidDev : Device) (pin : Bool) :
    ∀ (n : Nat) (st st' : NEL) (m : Module),
      cswLoop pid pidDev pin n st = (st', .ok m) →
      ∃ c en, cacheOf st' pidDev = some c ∧ alookup c.entries pid = some en ∧
        en.module = m := by
  intro n
  induction n with
  | zero =>
    intro st st' m h
    simp [cswLoop] at h
  | succ k ih =>
    intro st st' m h
    unfold cswLoop at h
    split at h
    · exact absurd h (by simp)
    · dsimp only at h
      split at h
      · exact absurd h (by simp)
      · split at h
        · exact absurd h (by simp)
        · split at h
          · exact absurd h (by simp)
          · split at h
            · rename_i m2 cp' htr
              simp only [Prod.mk.injEq, Except.ok.injEq] at h
              obtain ⟨hst, hm⟩ := h
              subst hst
              obtain ⟨pn, hen⟩ := tryRead_entry _ pid pin m2 cp' htr
              refine ⟨cp', ⟨m2, pn⟩, ?_, hen, hm⟩
              unfold cacheOf setCache
              exact alookup_aset_self _ pidDev cp'
            · exact ih _ _ _ h

theorem contextSwitchModule_resident (st st' : NEL) (pid : Pid) (pin : Bool) (m : Module)
    (h : contextSwitchModule st pid pin = (st', .ok m)) :
    ∃ pidDev c en, alookup st.particle_to_device pid = some pidDev ∧
      cacheOf st' pidDev = some c ∧ alookup c.entries pid = some en ∧
      en.module = m := by
  unfold contextSwitchModule at h
  split at h
  · exact absurd h (by simp)
  · rename_i pidDev hdev
    refine ⟨pidDev, ?_⟩
    split at h
    · exact absurd h (by simp)
    · rename_i st1 hw
      split at h
      · exact absurd h (by simp)
      · rename_i c hca
        split at h
        · rename_i m2 c' htr
          simp only [Prod.mk.injEq, Except.ok.injEq] at h
          obtain ⟨hst, hm⟩ := h
          subst hst
          obtain ⟨pn, hen⟩ := tryRead_entry _ pid pin m2 c' htr
          refine ⟨c', ⟨m2, pn⟩, hdev, ?_, hen, hm⟩
          unfold cacheOf setCache
          exact alookup_aset_self _ pidDev c'
        · obtain ⟨c2, en, hc2, hen, hm⟩ := cswLoop_resident pid pidDev pin _ _ _ _ h
          exact ⟨c2, en, hdev, hc2, hen, hm⟩

theorem contextSwitchModule_cswFrame (st : NEL) (pid : Pid) (pin : Bool) :
    CswFrame st (contextSwitchModule st pid pin).1 := by
  unfold contextSwitchModule
  split
  · exact cswFrame_refl st
  · split
    · rename_i st1 e heq
      have h := waitParticleThread_cswFrame st pid
      rw [heq] at h
      exact h
    · rename_i st1 heq
      have h := waitParticleThread_cswFrame st pid
      rw [heq] at h
      split
      · exact h
      · split
        · exact cswFrame_trans h (setCache_cswFrame _ _ _)
        · exact cswFrame_trans h (cswLoop_cswFrame _ _ _ _ _)

/-! ### Concrete event-loop states used by the witnesses and
counterexamples -/

/-- A handler that returns its first argument (so the value delivered to
the handler is directly observable in the result). -/
def handlerW : Handler := fun _p as => .ok (as.headD ⟨0, none⟩)

/-- A handler that raises. -/
def failHandlerW : Handler := fun _p _as => .error (.handlerError 42)

/-- Device 0's particle cache with particles 0 and 1 resident. -/
def cacheW : Cache :=
  { dflt := [⟨7, none⟩], capacity := 2,
    entries := [(0, ⟨[⟨7, none⟩], false⟩), (1, ⟨[⟨9, none⟩], false⟩)],
    store := [(0, [⟨7, none⟩]), (1, [⟨9, none⟩])] }

/-- Device 0's view cache, initially empty. -/
def viewCacheW : Cache :=
  { dflt := [⟨0, none⟩], capacity := 2, entries := [], store := [] }

/-- A small concrete event loop: rank 0 with device 0; particles 0 and 1
local (device 0), particle 2 on rank 1; particle 1 handles `"op"`. -/
def stW : NEL :=
  { rank := 0, out_queue := [], in_queues := [(1, [])],
    particle_to_rank := [(0, 0), (1, 0), (2, 1)],
    particle_to_device := [(0, 0), (1, 0), (2, 0)],
    particle_to_state := [(0, 0), (1, 0)],
    hooks := [(0, []), (1, [("op", handlerW)])],
    device_to_pthread := [],
    particle_caches := [(0, cacheW)],
    view_caches := [(0, viewCacheW)],
    future_id := 0,
    particle_to_futures := [(0, []), (1, []), (2, [])],
    future_to_particle := [],
    results := [],
    forwardFn := fun mod x _ => .ok ⟨(mod.headD ⟨0, none⟩).value + x.value, none⟩ }

/-- The caller's particle handle for `stW`: particle 0 with its module. -/
def pW : Particle := ⟨0, 0, [⟨7, none⟩], 0⟩

/-! ### Registration lemmas -/

theorem registerFuture_ok (st : NEL) (pid : Pid) (fid : Fid) (fids : List Fid)
    (hfut : alookup st.particle_to_futures pid = some fids) :
    registerFuture st pid fid =
      ({ st with particle_to_futures := aset st.particle_to_futures pid (if fid ∈ fids then fids else fids ++ [fid]),
                 future_to_particle := aset st.future_to_particle fid pid }, .ok ()) := by
  simp [registerFuture, hfut]

theorem sendReg_eq (st : NEL) (pid : Pid) (fids : List Fid)
    (hfut : alookup st.particle_to_futures pid = some fids) :
    sendReg st pid =
      { st with future_id := st.future_id + 1,
                particle_to_futures := aset st.particle_to_futures pid (if st.future_id ∈ fids then fids else fids ++ [st.future_id]),
                future_to_particle := aset st.future_to_particle st.future_id pid } := by
  have h := registerFuture_ok { st with future_id := st.future_id + 1 } pid st.future_id fids hfut
  simp [sendReg, createFutureId, h]

/-! ### C5: future ids are strictly increasing, hence pairwise
distinct -/

theorem genFutureIds_eq_range (st : NEL) (n : Nat) :
    genFutureIds st n = (List.range n).map (fun i => st.future_id + i) := by
  induction n generalizing st with
  | zero => simp [genFutureIds]
  | succ k ih =>
    rw [genFutureIds]
    simp only [createFutureId]
    rw [ih]
    rw [List.range_succ_eq_map]
    simp only [List.map_cons, List.map_map]
    refine congrArg₂ List.cons ?_ ?_
    · show st.future_id = st.future_id + 0
      exact (Nat.add_zero st.future_id).symm
    · have hfun : ((fun i => st.future_id + i) ∘ Nat.succ) = fun i => st.future_id + 1 + i := by
        funext i
        show st.future_id + Nat.succ i = st.future_id + 1 + i
        rw [Nat.succ_eq_add_one, Nat.add_assoc, Nat.add_comm 1 i]
      rw [hfun]

/-- C5: for every event loop instance, the sequence of future ids
produced by successive calls to `_create_future_id` is strictly
increasing, and therefore all future ids issued by that instance are
pairwise distinct. -/
theorem future_ids_strict_mono_and_distinct (st : NEL) (n : Nat) :
    List.Pairwise (· < ·) (genFutureIds st n) ∧
    List.Pairwise (· ≠ ·) (genFutureIds st n) := by
  have h := genFutureIds_eq_range st n
  have hlt : List.Pairwise (· < ·) (genFutureIds st n) := by
    rw [h]
    refine List.Pairwise.map _ ?_ (List.pairwise_lt_range n)
    intro a b hab
    change st.future_id + a < st.future_id + b
    exact Nat.add_lt_add_left hab st.future_id
  exact ⟨hlt, hlt.imp (fun hab => Nat.ne_of_lt hab)⟩

/-! ### C8: dispatching a remote invocation request with a registered
handler crashes on the unbound local `module` -/

/-- C8 (code bug): in `_dispatch`, the `ReceiveFuncMSG` arm never binds
the local name `module` (the context-switch result is discarded), so on
the concrete state `stW` an inbound `ReceiveFuncMSG` for particle 1's
registered operation `"op"` raises `NameError` instead of constructing
the actor view and running the handler. -/
theorem dispatch_receive_func_msg_name_error :
    (nelDispatch stW (.ReceiveFuncMSG (0, 0) 1 "op" [⟨1, none⟩])).2 = .exc .nameError := by
  rfl

/-! ### C6: unknown operation names -/

/-- C6 counterexample: on the concrete state `stW`, particle 1's handler
table has no entry `"nosuch"`, and a same-rank `send` with that name
raises `KeyError` (the unchecked `self._hooks[pid][msg_name]` lookup)
instead of being silently ignored. -/
theorem send_unknown_op_raises_key_error :
    (nelSend stW pW 0 1 "nosuch" []).2 = .error .keyError := by
  rfl

/-- C6 (amended): an inbound remote invocation message
(`ReceiveFuncMSG` or `ReceiveFuncPDMSG`) whose operation name is absent
from the target's handler table is silently ignored — the state is
unchanged, no acknowledgment is produced and dispatch continues — but
the same-rank `send` path does not share this behavior: its unchecked
handler lookup raises `KeyError`. -/
theorem unknown_op_silently_dropped_in_dispatch_not_send
    (st : NEL) (s : Pid × Fid) (pid : Pid) (op : String) (args : List Arg)
    (tbl : List (String × Handler))
    (hhk : alookup st.hooks pid = some tbl) (hop : alookup tbl op = none) :
    nelDispatch st (.ReceiveFuncMSG s pid op args) = (st, .cont) ∧
    nelDispatch st (.ReceiveFuncPDMSG s pid op args) = (st, .cont) ∧
    (∀ (p : Particle) (pid_curr : Pid) (fids : List Fid) (r : Rank) (st3 : NEL) (mod : Module),
      alookup st.particle_to_futures pid_curr = some fids →
      alookup st.particle_to_rank pid_curr = some r →
      alookup st.particle_to_rank pid = some r →
      contextSwitchModule (sendReg st pid_curr) pid false = (st3, .ok mod) →
      (nelSend st p pid_curr pid op args).2 = .error .keyError) := by
  refine ⟨?_, ?_, ?_⟩
  · simp [nelDispatch, hhk, hop]
  · simp [nelDispatch, hhk, hop]
  · intro p pid_curr fids r st3 mod hfut hr1 hr2 hcsw
    have hsreg := sendReg_eq st pid_curr fids hfut
    have hrf := registerFuture_ok { st with future_id := st.future_id + 1 }
      pid_curr st.future_id fids hfut
    have hfr := contextSwitchModule_cswFrame (sendReg st pid_curr) pid false
    rw [hcsw] at hfr
    obtain ⟨_, _, _, _, _, _, hhk3, _, _, _, _, _, _⟩ := hfr
    have hhk3' : alookup st3.hooks pid = some tbl := by
      rw [hhk3, hsreg]
      exact hhk
    have hr1' : alookup (sendReg st pid_curr).particle_to_rank pid_curr = some r := by
      rw [hsreg]; exact hr1
    have hr2' : alookup (sendReg st pid_curr).particle_to_rank pid = some r := by
      rw [hsreg]; exact hr2
    unfold nelSend
    simp only [createFutureId]
    rw [show (registerFuture { st with future_id := st.future_id + 1 } pid_curr st.future_id) = (sendReg st pid_curr, .ok ()) from by rw [hrf, hsreg]]
    dsimp only
    rw [hr1', hr2']
    dsimp only
    rw [if_pos rfl]
    rw [hcsw]
    dsimp only
    rw [hhk3']
    dsimp only
    rw [hop]

/-! ### The same-rank send path, fully computed -/

theorem nelSend_sameRank_eq
    (st : NEL) (p : Particle) (pid1 pid2 : Pid) (op : String) (args : List Arg)
    (r : Rank) (fids : List Fid) (st3 st4 : NEL) (mod mod2 : Module)
    (tbl : List (String × Handler)) (fn : Handler) (ustate : Int) (dev : Device) (y : Arg)
    (hfut : alookup st.particle_to_futures pid1 = some fids)
    (hr1 : alookup st.particle_to_rank pid1 = some r)
    (hr2 : alookup st.particle_to_rank pid2 = some r)
    (hcsw : contextSwitchModule (sendReg st pid1) pid2 false = (st3, .ok mod))
    (hhk : alookup st.hooks pid2 = some tbl)
    (hfn : alookup tbl op = some fn)
    (hst : alookup st.particle_to_state pid2 = some ustate)
    (hdev : alookup st.particle_to_device pid2 = some dev)
    (hy : fn ⟨dev, pid2, mod, ustate⟩ (args.map (detach_to_device dev)) = .ok y)
    (hcsw2 : contextSwitchModule { st3 with results := aset st3.results st.future_id (.val y) } pid1 false = (st4, .ok mod2)) :
    nelSend st p pid1 pid2 op args =
      (st4, .ok ({ p with module := mod2 }, ⟨pid1, pid2, st.future_id⟩)) := by
  have hsreg := sendReg_eq st pid1 fids hfut
  have hrf := registerFuture_ok { st with future_id := st.future_id + 1 }
    pid1 st.future_id fids hfut
  have hfr := contextSwitchModule_cswFrame (sendReg st pid1) pid2 false
  rw [hcsw] at hfr
  obtain ⟨_, _, _, _, hfr_dev, hfr_state, hfr_hooks, _, _, _, _, _, _⟩ := hfr
  have hr1' : alookup (sendReg st pid1).particle_to_rank pid1 = some r := by
    rw [hsreg]; exact hr1
  have hr2' : alookup (sendReg st pid1).particle_to_rank pid2 = some r := by
    rw [hsreg]; exact hr2
  have hhk3 : alookup st3.hooks pid2 = some tbl := by
    rw [hfr_hooks, hsreg]; exact hhk
  have hst3 : alookup st3.particle_to_state pid2 = some ustate := by
    rw [hfr_state, hsreg]; exact hst
  have hdev3 : alookup st3.particle_to_device pid2 = some dev := by
    rw [hfr_dev, hsreg]; exact hdev
  unfold nelSend
  simp only [createFutureId]
  rw [show (registerFuture { st with future_id := st.future_id + 1 } pid1 st.future_id) = (sendReg st pid1, .ok ()) from by rw [hrf, hsreg]]
  dsimp only
  rw [hr1', hr2']
  dsimp only
  rw [if_pos rfl]
  rw [hcsw]
  dsimp only
  rw [hhk3]
  dsimp only
  rw [hfn]
  dsimp only
  rw [hst3]
  dsimp only
  rw [hdev3]
  dsimp only
  rw [hy]
  dsimp only
  rw [hcsw2]

/-! ### The result-check and wait fast path -/

theorem checkResults_found (st : NEL) (fid : Fid) (res : Res) (pid : Pid) (fl : List Fid)
    (h1 : alookup st.results fid = some res)
    (h2 : alookup st.future_to_particle fid = some pid)
    (h3 : alookup st.particle_to_futures pid = some fl)
    (h4 : fid ∈ fl) :
    checkResults st fid = .ok (some (res,
      { st with results := aremove st.results fid,
                future_to_particle := aremove st.future_to_particle fid,
                particle_to_futures := aset st.particle_to_futures pid (fl.erase fid) })) := by
  unfold checkResults
  rw [h1]
  dsimp only
  rw [show alookup ({ st with results := aremove st.results fid } : NEL).future_to_particle fid = some pid from h2]
  dsimp only
  rw [show alookup ({ st with results := aremove st.results fid, future_to_particle := aremove st.future_to_particle fid } : NEL).particle_to_futures pid = some fl from h3]
  dsimp only
  rw [if_pos h4]

theorem nelWaitFull_found (fid : Fid) (st stF : NEL) (q : List Msg) (res : Res)
    (hcheck : checkResults st fid = .ok (some (res, stF))) :
    nelWaitFull fid st q = (stF, .ok (some (res, q))) := by
  unfold nelWaitFull nelWait
  rw [hcheck]
  dsimp only [dispatchList]

theorem nelWait_found (fid : Fid) (st stF : NEL) (q : List Msg) (res : Res)
    (hcheck : checkResults st fid = .ok (some (res, stF))) :
    nelWait fid st q = (stF, .ok (some (res, [], q))) := by
  unfold nelWait
  rw [hcheck]

/-! ### C1: same-rank send followed by wait returns the handler's
value -/

/-- C1: for particles on the same rank, waiting on the future returned
by `send(pid1, pid2, op, args)` returns exactly the value that pid2's
handler for `op` returns when applied to those args after transfer to
pid2's device — for any state of the inbound queue, and without
consuming it. -/
theorem send_wait_returns_handler_result
    (st : NEL) (p : Particle) (pid1 pid2 : Pid) (op : String) (args : List Arg)
    (r : Rank) (fids : List Fid) (st3 st4 : NEL) (mod mod2 : Module)
    (tbl : List (String × Handler)) (fn : Handler) (ustate : Int) (dev : Device)
    (y : Arg) (q : List Msg)
    (hfut : alookup st.particle_to_futures pid1 = some fids)
    (hr1 : alookup st.particle_to_rank pid1 = some r)
    (hr2 : alookup st.particle_to_rank pid2 = some r)
    (hcsw : contextSwitchModule (sendReg st pid1) pid2 false = (st3, .ok mod))
    (hhk : alookup st.hooks pid2 = some tbl)
    (hfn : alookup tbl op = some fn)
    (hst : alookup st.particle_to_state pid2 = some ustate)
    (hdev : alookup st.particle_to_device pid2 = some dev)
    (hy : fn ⟨dev, pid2, mod, ustate⟩ (args.map (detach_to_device dev)) = .ok y)
    (hcsw2 : contextSwitchModule { st3 with results := aset st3.results st.future_id (.val y) } pid1 false = (st4, .ok mod2)) :
    (nelSend st p pid1 pid2 op args).2 =
      .ok ({ p with module := mod2 }, ⟨pid1, pid2, st.future_id⟩) ∧
    (nelWaitFull st.future_id ((nelSend st p pid1 pid2 op args).1) q).2 =
      .ok (some (.val y, q)) := by
  have hmain := nelSend_sameRank_eq st p pid1 pid2 op args r fids st3 st4 mod mod2
    tbl fn ustate dev y hfut hr1 hr2 hcsw hhk hfn hst hdev hy hcsw2
  have hsreg := sendReg_eq st pid1 fids hfut
  have hfr1 := contextSwitchModule_cswFrame (sendReg st pid1) pid2 false
  rw [hcsw] at hfr1
  obtain ⟨_, _, _, _, _, _, _, _, _, hfr1_ptf, hfr1_ftp, _, _⟩ := hfr1
  have hfr2 := contextSwitchModule_cswFrame
    { st3 with results := aset st3.results st.future_id (.val y) } pid1 false
  rw [hcsw2] at hfr2
  obtain ⟨_, _, _, _, _, _, _, _, _, hfr2_ptf, hfr2_ftp, hfr2_res, _⟩ := hfr2
  have h1 : alookup st4.results st.future_id = some (.val y) := by
    rw [hfr2_res]
    exact alookup_aset_self _ _ _
  have h2 : alookup st4.future_to_particle st.future_id = some pid1 := by
    rw [hfr2_ftp]
    show alookup st3.future_to_particle st.future_id = some pid1
    rw [hfr1_ftp, hsreg]
    exact alookup_aset_self _ _ _
  have h3 : alookup st4.particle_to_futures pid1 =
      some (if st.future_id ∈ fids then fids else fids ++ [st.future_id]) := by
    rw [hfr2_ptf]
    show alookup st3.particle_to_futures pid1 = _
    rw [hfr1_ptf, hsreg]
    exact alookup_aset_self _ _ _
  have h4 : st.future_id ∈ (if st.future_id ∈ fids then fids else fids ++ [st.future_id]) := by
    by_cases hmem : st.future_id ∈ fids
    · rw [if_pos hmem]; exact hmem
    · rw [if_neg hmem]
      exact List.mem_append_right fids (List.mem_singleton_self _)
  have hcheck := checkResults_found st4 st.future_id (.val y) pid1 _ h1 h2 h3 h4
  have hwf := nelWaitFull_found st.future_id st4 _ q (.val y) hcheck
  constructor
  · rw [hmain]
  · rw [hmain]
    dsimp only
    rw [hwf]

/-- C1 witness: on the concrete state `stW`, `send(0, 1, "op", [5])`
followed by `wait` on the returned future yields the handler's result:
the argument transferred to device 0, i.e. `⟨5, some 0⟩`. -/
theorem send_wait_returns_handler_result_witness :
    (nelSend stW pW 0 1 "op" [⟨5, none⟩]).2 =
      .ok ({ pW with module := [⟨7, none⟩] }, ⟨0, 1, 0⟩) ∧
    (nelWaitFull 0 ((nelSend stW pW 0 1 "op" [⟨5, none⟩]).1) []).2 =
      .ok (some (.val ⟨5, some 0⟩, [])) := by
  have h := send_wait_returns_handler_result stW pW 0 1 "op" [⟨5, none⟩] 0 []
    ((contextSwitchModule (sendReg stW 0) 1 false).1)
    ((contextSwitchModule { (contextSwitchModule (sendReg stW 0) 1 false).1 with results := aset ((contextSwitchModule (sendReg stW 0) 1 false).1).results 0 (.val ⟨5, some 0⟩) } 0 false).1)
    [⟨9, none⟩] [⟨7, none⟩] [("op", handlerW)] handlerW 0 0 ⟨5, some 0⟩ []
    (by rfl) (by rfl) (by rfl) (by rfl) (by rfl) (by rfl) (by rfl) (by rfl) (by rfl)
    (by rfl)
  exact h

/-! ### C4: after a same-rank send the caller's own resource is back in
context -/

/-- C4: a same-rank `send(from, to, op, args)` that returns normally
context-switches `from`'s own resource back in after the inline handler
execution: the particle handle handed back to the caller carries the
module obtained from that final context switch, and that module is the
one resident in `from`'s device cache entry in the returned state. -/
theorem send_restores_caller_module
    (st : NEL) (p : Particle) (pid1 pid2 : Pid) (op : String) (args : List Arg)
    (r : Rank) (fids : List Fid) (st3 st4 : NEL) (mod mod2 : Module)
    (tbl : List (String × Handler)) (fn : Handler) (ustate : Int) (dev dev1 : Device)
    (y : Arg)
    (hfut : alookup st.particle_to_futures pid1 = some fids)
    (hr1 : alookup st.particle_to_rank pid1 = some r)
    (hr2 : alookup st.particle_to_rank pid2 = some r)
    (hcsw : contextSwitchModule (sendReg st pid1) pid2 false = (st3, .ok mod))
    (hhk : alookup st.hooks pid2 = some tbl)
    (hfn : alookup tbl op = some fn)
    (hst : alookup st.particle_to_state pid2 = some ustate)
    (hdev : alookup st.particle_to_device pid2 = some dev)
    (hy : fn ⟨dev, pid2, mod, ustate⟩ (args.map (detach_to_device dev)) = .ok y)
    (hcsw2 : contextSwitchModule { st3 with results := aset st3.results st.future_id (.val y) } pid1 false = (st4, .ok mod2))
    (hdev1 : alookup st.particle_to_device pid1 = some dev1) :
    (nelSend st p pid1 pid2 op args).2 =
      .ok ({ p with module := mod2 }, ⟨pid1, pid2, st.future_id⟩) ∧
    (∃ c en, cacheOf ((nelSend st p pid1 pid2 op args).1) dev1 = some c ∧
      alookup c.entries pid1 = some en ∧ en.module = mod2) := by
  have hmain := nelSend_sameRank_eq st p pid1 pid2 op args r fids st3 st4 mod mod2
    tbl fn ustate dev y hfut hr1 hr2 hcsw hhk hfn hst hdev hy hcsw2
  have hsreg := sendReg_eq st pid1 fids hfut
  have hfr1 := contextSwitchModule_cswFrame (sendReg st pid1) pid2 false
  rw [hcsw] at hfr1
  obtain ⟨_, _, _, _, hfr1_dev, _, _, _, _, _, _, _, _⟩ := hfr1
  obtain ⟨pidDev, c, en, hpd, hc, hen, hm⟩ :=
    contextSwitchModule_resident _ _ pid1 false mod2 hcsw2
  have hpd' : alookup st.particle_to_device pid1 = some pidDev := by
    rw [← hpd]
    show alookup st.particle_to_device pid1 = alookup st3.particle_to_device pid1
    rw [hfr1_dev, hsreg]
  have hdd : pidDev = dev1 := by
    rw [hpd'] at hdev1
    exact (Option.some.injEq _ _).mp hdev1
  subst hdd
  constructor
  · rw [hmain]
  · refine ⟨c, en, ?_, hen, hm⟩
    rw [hmain]
    exact hc

/-- C4 witness: on the concrete state `stW`, after `send(0, 1, "op",
[5])` the caller's particle handle holds particle 0's own module
`[⟨7, none⟩]`, which is resident in device 0's cache. -/
theorem send_restores_caller_module_witness :
    (nelSend stW pW 0 1 "op" [⟨5, none⟩]).2 =
      .ok ({ pW with module := [⟨7, none⟩] }, ⟨0, 1, 0⟩) ∧
    (∃ c en, cacheOf ((nelSend stW pW 0 1 "op" [⟨5, none⟩]).1) 0 = some c ∧
      alookup c.entries 0 = some en ∧ en.module = [⟨7, none⟩]) := by
  have h := send_restores_caller_module stW pW 0 1 "op" [⟨5, none⟩] 0 []
    ((contextSwitchModule (sendReg stW 0) 1 false).1)
    ((contextSwitchModule { (contextSwitchModule (sendReg stW 0) 1 false).1 with results := aset ((contextSwitchModule (sendReg stW 0) 1 false).1).results 0 (.val ⟨5, some 0⟩) } 0 false).1)
    [⟨9, none⟩] [⟨7, none⟩] [("op", handlerW)] handlerW 0 0 0 ⟨5, some 0⟩
    (by rfl) (by rfl) (by rfl) (by rfl) (by rfl) (by rfl) (by rfl) (by rfl) (by rfl)
    (by rfl) (by rfl)
  exact h

/-! ### C10: the same-rank send records its result before returning, so
wait resolves on its first check -/

/-- C10: after a normally-returning same-rank send, the handler's result
is already recorded in the results map under the new future id, so a
subsequent wait on that future finds it on the first check and returns
without consuming any inbound message; the wait also removes the future
id from the results map, the future-to-particle map and the owning
particle's pending-future set. -/
theorem send_result_prerecorded_wait_first_check
    (st : NEL) (p : Particle) (pid1 pid2 : Pid) (op : String) (args : List Arg)
    (r : Rank) (fids : List Fid) (st3 st4 : NEL) (mod mod2 : Module)
    (tbl : List (String × Handler)) (fn : Handler) (ustate : Int) (dev : Device)
    (y : Arg) (q : List Msg)
    (hfut : alookup st.particle_to_futures pid1 = some fids)
    (hnot : st.future_id ∉ fids)
    (hr1 : alookup st.particle_to_rank pid1 = some r)
    (hr2 : alookup st.particle_to_rank pid2 = some r)
    (hcsw : contextSwitchModule (sendReg st pid1) pid2 false = (st3, .ok mod))
    (hhk : alookup st.hooks pid2 = some tbl)
    (hfn : alookup tbl op = some fn)
    (hst : alookup st.particle_to_state pid2 = some ustate)
    (hdev : alookup st.particle_to_device pid2 = some dev)
    (hy : fn ⟨dev, pid2, mod, ustate⟩ (args.map (detach_to_device dev)) = .ok y)
    (hcsw2 : contextSwitchModule { st3 with results := aset st3.results st.future_id (.val y) } pid1 false = (st4, .ok mod2)) :
    (nelSend st p pid1 pid2 op args).2 =
      .ok ({ p with module := mod2 }, ⟨pid1, pid2, st.future_id⟩) ∧
    alookup ((nelSend st p pid1 pid2 op args).1).results st.future_id = some (.val y) ∧
    (∃ stF, nelWait st.future_id ((nelSend st p pid1 pid2 op args).1) q =
        (stF, .ok (some (.val y, [], q))) ∧
      alookup stF.results st.future_id = none ∧
      alookup stF.future_to_particle st.future_id = none ∧
      alookup stF.particle_to_futures pid1 = some fids) := by
  have hmain := nelSend_sameRank_eq st p pid1 pid2 op args r fids st3 st4 mod mod2
    tbl fn ustate dev y hfut hr1 hr2 hcsw hhk hfn hst hdev hy hcsw2
  have hsreg := sendReg_eq st pid1 fids hfut
  have hfr1 := contextSwitchModule_cswFrame (sendReg st pid1) pid2 false
  rw [hcsw] at hfr1
  obtain ⟨_, _, _, _, _, _, _, _, _, hfr1_ptf, hfr1_ftp, _, _⟩ := hfr1
  have hfr2 := contextSwitchModule_cswFrame
    { st3 with results := aset st3.results st.future_id (.val y) } pid1 false
  rw [hcsw2] at hfr2
  obtain ⟨_, _, _, _, _, _, _, _, _, hfr2_ptf, hfr2_ftp, hfr2_res, _⟩ := hfr2
  have h1 : alookup st4.results st.future_id = some (.val y) := by
    rw [hfr2_res]
    exact alookup_aset_self _ _ _
  have h2 : alookup st4.future_to_particle st.future_id = some pid1 := by
    rw [hfr2_ftp]
    show alookup st3.future_to_particle st.future_id = some pid1
    rw [hfr1_ftp, hsreg]
    exact alookup_aset_self _ _ _
  have h3 : alookup st4.particle_to_futures pid1 = some (fids ++ [st.future_id]) := by
    rw [hfr2_ptf]
    show alookup st3.particle_to_futures pid1 = _
    rw [hfr1_ptf, hsreg]
    rw [if_neg hnot]
    exact alookup_aset_self _ _ _
  have h4 : st.future_id ∈ fids ++ [st.future_id] :=
    List.mem_append_right fids (List.mem_singleton_self _)
  have hcheck := checkResults_found st4 st.future_id (.val y) pid1 _ h1 h2 h3 h4
  have hwait := nelWait_found st.future_id st4 _ q (.val y) hcheck
  have herase : (fids ++ [st.future_id]).erase st.future_id = fids := by
    rw [List.erase_append_right _ hnot, List.erase_cons_head, List.append_nil]
  refine ⟨by rw [hmain], ?_, ?_⟩
  · rw [hmain]
    exact h1
  · refine ⟨{ st4 with results := aremove st4.results st.future_id, future_to_particle := aremove st4.future_to_particle st.future_id, particle_to_futures := aset st4.particle_to_futures pid1 ((fids ++ [st.future_id]).erase st.future_id) }, ?_, ?_, ?_, ?_⟩
    · rw [hmain]
      dsimp only
      exact hwait
    · show alookup (aremove st4.results st.future_id) st.future_id = none
      exact alookup_aremove_self _ _
    · show alookup (aremove st4.future_to_particle st.future_id) st.future_id = none
      exact alookup_aremove_self _ _
    · show alookup (aset st4.particle_to_futures pid1 ((fids ++ [st.future_id]).erase st.future_id)) pid1 = some fids
      rw [herase]
      exact alookup_aset_self _ _ _

/-- C10 witness: on the concrete state `stW`, the result of
`send(0, 1, "op", [5])` is in the results map before the future is
returned, and wait resolves on its first check without touching the
queue, deregistering future 0 everywhere. -/
theorem send_result_prerecorded_wait_first_check_witness :
    (nelSend stW pW 0 1 "op" [⟨5, none⟩]).2 =
      .ok ({ pW with module := [⟨7, none⟩] }, ⟨0, 1, 0⟩) ∧
    alookup ((nelSend stW pW 0 1 "op" [⟨5, none⟩]).1).results 0 = some (.val ⟨5, some 0⟩) ∧
    (∃ stF, nelWait 0 ((nelSend stW pW 0 1 "op" [⟨5, none⟩]).1) [.NELSaveModel (0, 0)] =
        (stF, .ok (some (.val ⟨5, some 0⟩, [], [.NELSaveModel (0, 0)]))) ∧
      alookup stF.results 0 = none ∧
      alookup stF.future_to_particle 0 = none ∧
      alookup stF.particle_to_futures 0 = some []) := by
  have h := send_result_prerecorded_wait_first_check stW pW 0 1 "op" [⟨5, none⟩] 0 []
    ((contextSwitchModule (sendReg stW 0) 1 false).1)
    ((contextSwitchModule { (contextSwitchModule (sendReg stW 0) 1 false).1 with results := aset ((contextSwitchModule (sendReg stW 0) 1 false).1).results 0 (.val ⟨5, some 0⟩) } 0 false).1)
    [⟨9, none⟩] [⟨7, none⟩] [("op", handlerW)] handlerW 0 0 ⟨5, some 0⟩
    [.NELSaveModel (0, 0)]
    (by rfl) (by simp) (by rfl) (by rfl) (by rfl) (by rfl) (by rfl) (by rfl) (by rfl)
    (by rfl) (by rfl)
  exact h

/-! ### C9: cross-rank send -/

/-- C9: a `send` whose target lives on a different rank detaches every
argument to host-resident form, appends exactly one `ReceiveFuncMSG`
carrying the sender's (pid, future id), the target pid, the operation
name and those host-resident copies to the target rank's queue, and
returns the future immediately: no result is recorded locally and
nothing is placed on the coordinator queue. -/
theorem cross_rank_send_enqueues_host_copies
    (st : NEL) (p : Particle) (pid1 pid2 : Pid) (op : String) (args : List Arg)
    (r1 r2 : Rank) (fids : List Fid) (q0 : List Msg)
    (hfut : alookup st.particle_to_futures pid1 = some fids)
    (hr1 : alookup st.particle_to_rank pid1 = some r1)
    (hr2 : alookup st.particle_to_rank pid2 = some r2)
    (hne : r2 ≠ r1)
    (hq : alookup st.in_queues r2 = some q0) :
    (nelSend st p pid1 pid2 op args).2 = .ok (p, ⟨pid1, pid2, st.future_id⟩) ∧
      ((nelSend st p pid1 pid2 op args).1).results = st.results ∧
      alookup ((nelSend st p pid1 pid2 op args).1).in_queues r2 =
        some (q0 ++ [.ReceiveFuncMSG (pid1, st.future_id) pid2 op (args.map detach_to_cpu)]) ∧
      ((nelSend st p pid1 pid2 op args).1).out_queue = st.out_queue ∧
      (∀ a ∈ args.map detach_to_cpu, a.device = none) := by
  have hsreg := sendReg_eq st pid1 fids hfut
  have hrf := registerFuture_ok { st with future_id := st.future_id + 1 }
    pid1 st.future_id fids hfut
  have hr1' : alookup (sendReg st pid1).particle_to_rank pid1 = some r1 := by
    rw [hsreg]; exact hr1
  have hr2' : alookup (sendReg st pid1).particle_to_rank pid2 = some r2 := by
    rw [hsreg]; exact hr2
  have hq' : alookup (sendReg st pid1).in_queues r2 = some q0 := by
    rw [hsreg]; exact hq
  have hmain : nelSend st p pid1 pid2 op args =
      ({ sendReg st pid1 with in_queues := aset (sendReg st pid1).in_queues r2 (q0 ++ [.ReceiveFuncMSG (pid1, st.future_id) pid2 op (args.map detach_to_cpu)]) },
       .ok (p, ⟨pid1, pid2, st.future_id⟩)) := by
    unfold nelSend
    simp only [createFutureId]
    rw [show (registerFuture { st with future_id := st.future_id + 1 } pid1 st.future_id) = (sendReg st pid1, .ok ()) from by rw [hrf, hsreg]]
    dsimp only
    rw [hr1', hr2']
    dsimp only
    rw [if_neg hne]
    rw [hq']
  refine ⟨?_, ?_, ?_, ?_, ?_⟩
  · rw [hmain]
  · rw [hmain]
    show (sendReg st pid1).results = st.results
    rw [hsreg]
  · rw [hmain]
    exact alookup_aset_self _ r2 _
  · rw [hmain]
    show (sendReg st pid1).out_queue = st.out_queue
    rw [hsreg]
  · intro a ha
    simp only [List.mem_map] at ha
    obtain ⟨b, _, hb⟩ := ha
    rw [← hb]
    rfl

/-- C9 witness: on the concrete state `stW`, sending to particle 2
(rank 1) from particle 0 (rank 0) with a device-resident argument
enqueues one `ReceiveFuncMSG` whose argument copy is host-resident, and
records nothing locally. -/
theorem cross_rank_send_enqueues_host_copies_witness :
    (nelSend stW pW 0 2 "op" [⟨5, some 0⟩]).2 = .ok (pW, ⟨0, 2, 0⟩) ∧
    ((nelSend stW pW 0 2 "op" [⟨5, some 0⟩]).1).results = stW.results ∧
    alookup ((nelSend stW pW 0 2 "op" [⟨5, some 0⟩]).1).in_queues 1 =
      some ([] ++ [.ReceiveFuncMSG (0, 0) 2 "op" ([⟨5, some 0⟩].map detach_to_cpu)]) ∧
    ((nelSend stW pW 0 2 "op" [⟨5, some 0⟩]).1).out_queue = stW.out_queue ∧
    (∀ a ∈ ([⟨5, some 0⟩] : List Arg).map detach_to_cpu, a.device = none) := by
  have h := cross_rank_send_enqueues_host_copies stW pW 0 2 "op" [⟨5, some 0⟩] 0 1 [] []
    (by rfl) (by rfl) (by rfl) (by decide) (by rfl)
  exact h

/-! ### C7: exception handling -/

/-- A variant of `stW` whose particle 1 registers a raising handler
`"boom"` and whose modules raise inside `forward`. -/
def stWf : NEL :=
  { stW with hooks := [(0, []), (1, [("boom", failHandlerW)])],
             forwardFn := fun _mod _x _args => .error (.handlerError 7) }

/-- C7 (amended): an exception raised inside a handler during dispatch
is captured, forwarded as an error value on the outbound queue, and is
fatal — the event loop stops dispatching immediately, whatever the rest
of the queue holds.  An exception raised inside a compute unit (a worker
such as `forward`'s) is also captured and forwarded on the outbound
queue, but it kills only the worker thread: the operation still returns
its future normally and the event loop is not torn down. -/
theorem handler_exception_fatal_compute_unit_exception_confined
    (st : NEL) (s : Pid × Fid) (pid pidf : Pid) (op : String) (args fargs : List Arg)
    (tbl : List (String × Handler)) (fn : Handler) (ustate : Int) (dev : Device)
    (st1 : NEL) (mod : Module) (e : PErr)
    (fids : List Fid) (stf1 : NEL) (modf : Module) (devf : Device) (x : Arg) (ef : PErr)
    (hhk : alookup st.hooks pid = some tbl)
    (hfn : alookup tbl op = some fn)
    (hst : alookup st.particle_to_state pid = some ustate)
    (hdev : alookup st.particle_to_device pid = some dev)
    (hcsw : contextSwitchModule st pid false = (st1, .ok mod))
    (hy : fn ⟨dev, pid, mod, ustate⟩ args = .error e)
    (hfut : alookup st.particle_to_futures pidf = some fids)
    (hcswf : contextSwitchModule (sendReg st pidf) pidf false = (stf1, .ok modf))
    (hdevf : alookup st.particle_to_device pidf = some devf)
    (hff : st.forwardFn modf x fargs = .error ef) :
    (∀ ms, startEventLoop st (.ReceiveFuncPDMSG s pid op args :: ms) =
      ({ st1 with out_queue := st1.out_queue ++ [.err e] }, some e)) ∧
    OutItem.err e ∈ ({ st1 with out_queue := st1.out_queue ++ [.err e] } : NEL).out_queue ∧
    (nelForward st pidf x fargs).2 = .ok ⟨pidf, pidf, st.future_id⟩ ∧
    OutItem.err ef ∈ ((nelForward st pidf x fargs).1).out_queue := by
  have hdisp : nelDispatch st (.ReceiveFuncPDMSG s pid op args) =
      ({ st1 with out_queue := st1.out_queue ++ [.err e] }, .exc e) := by
    unfold nelDispatch
    dsimp only
    rw [hhk]
    dsimp only
    rw [hfn]
    dsimp only
    rw [hst]
    dsimp only
    rw [hdev]
    dsimp only
    rw [hcsw]
    dsimp only
    rw [hy]
    rfl
  have hsreg := sendReg_eq st pidf fids hfut
  have hrf := registerFuture_ok { st with future_id := st.future_id + 1 }
    pidf st.future_id fids hfut
  have hfrf := contextSwitchModule_cswFrame (sendReg st pidf) pidf false
  rw [hcswf] at hfrf
  obtain ⟨_, hfrf_out, _, _, hfrf_dev, _, _, _, _, _, _, _, hfrf_fwd⟩ := hfrf
  have hdevf1 : alookup stf1.particle_to_device pidf = some devf := by
    rw [hfrf_dev, hsreg]; exact hdevf
  have hfwd1 : stf1.forwardFn = st.forwardFn := by
    rw [hfrf_fwd, hsreg]
  have hfwd : nelForward st pidf x fargs =
      (nelCleanup { { stf1 with device_to_pthread := aset stf1.device_to_pthread devf pidf } with out_queue := { stf1 with device_to_pthread := aset stf1.device_to_pthread devf pidf }.out_queue ++ [.err ef] },
       .ok ⟨pidf, pidf, st.future_id⟩) := by
    unfold nelForward
    simp only [createFutureId]
    rw [show (registerFuture { st with future_id := st.future_id + 1 } pidf st.future_id) = (sendReg st pidf, .ok ()) from by rw [hrf, hsreg]]
    dsimp only
    rw [hcswf]
    dsimp only
    rw [hdevf1]
    dsimp only
    rw [show ({ stf1 with device_to_pthread := aset stf1.device_to_pthread devf pidf } : NEL).forwardFn modf x fargs = .error ef from by rw [show ({ stf1 with device_to_pthread := aset stf1.device_to_pthread devf pidf } : NEL).forwardFn = st.forwardFn from hfwd1]; exact hff]
  refine ⟨?_, ?_, ?_, ?_⟩
  · intro ms
    unfold startEventLoop
    rw [hdisp]
  · exact List.mem_append_right _ (List.mem_singleton_self _)
  · rw [hfwd]
  · rw [hfwd]
    show OutItem.err ef ∈ (nelCleanup _).out_queue
    unfold nelCleanup cleanupStep
    exact List.mem_append_right _ (List.mem_singleton_self _)

/-- C7 counterexample: on the concrete state `stWf` an exception inside
the `forward` compute unit is forwarded on the outbound queue, but the
event loop does not tear down: `forward` still returns its future, and a
subsequent save-model message is dispatched and acknowledged as if
nothing had happened — "stops dispatching" fails for compute units. -/
theorem compute_unit_exception_does_not_stop_loop :
    (nelForward stWf 0 ⟨1, none⟩ []).2 = .ok ⟨0, 0, 0⟩ ∧
    ((nelForward stWf 0 ⟨1, none⟩ []).1).out_queue = [.err (.handlerError 7)] ∧
    (startEventLoop ((nelForward stWf 0 ⟨1, none⟩ []).1) [.NELSaveModel (0, 0)]).2 = none ∧
    ((startEventLoop ((nelForward stWf 0 ⟨1, none⟩ []).1) [.NELSaveModel (0, 0)]).1).out_queue =
      [.err (.handlerError 7), .msg (.NELSaveModelAckPDMSG (0, 0))] := by
  exact ⟨rfl, rfl, rfl, rfl⟩

/-- C7 witness: on `stWf`, a handler exception (`"boom"` on particle 1)
stops the loop with the error forwarded, while a compute-unit exception
(inside `forward`) is forwarded but the future is still returned. -/
theorem handler_exception_fatal_witness :
    startEventLoop stWf
        [.ReceiveFuncPDMSG (0, 0) 1 "boom" [], .NELSaveModel (0, 0)] =
      ({ (contextSwitchModule stWf 1 false).1 with out_queue := ((contextSwitchModule stWf 1 false).1).out_queue ++ [.err (.handlerError 42)] }, some (.handlerError 42)) ∧
    OutItem.err (.handlerError 42) ∈
      ({ (contextSwitchModule stWf 1 false).1 with out_queue := ((contextSwitchModule stWf 1 false).1).out_queue ++ [.err (.handlerError 42)] } : NEL).out_queue ∧
    (nelForward stWf 0 ⟨1, none⟩ []).2 = .ok ⟨0, 0, stWf.future_id⟩ ∧
    OutItem.err (.handlerError 7) ∈ ((nelForward stWf 0 ⟨1, none⟩ []).1).out_queue := by
  have h := handler_exception_fatal_compute_unit_exception_confined stWf (0, 0) 1 0 "boom"
    [] [] [("boom", failHandlerW)] failHandlerW 0 0
    ((contextSwitchModule stWf 1 false).1) [⟨9, none⟩] (.handlerError 42)
    [] ((contextSwitchModule (sendReg stWf 0) 0 false).1) [⟨7, none⟩] 0 ⟨1, none⟩
    (.handlerError 7)
    (by rfl) (by rfl) (by rfl) (by rfl) (by rfl) (by rfl) (by rfl) (by rfl) (by rfl)
    (by rfl)
  exact ⟨h.1 [.NELSaveModel (0, 0)], h.2.1, h.2.2.1, h.2.2.2⟩

/-! ### C2: get returns a view frozen at copy time -/

theorem copyParams_values :
    ∀ (d s : Module), d.length = s.length →
      (copyParams d s).map Param.value = s.map Param.value := by
  intro d
  induction d with
  | nil =>
    intro s hlen
    cases s with
    | nil => rfl
    | cons a tl => simp at hlen
  | cons p tl ih =>
    intro s hlen
    cases s with
    | nil => simp at hlen
    | cons a stl =>
      simp only [copyParams, List.map_cons]
      simp only [List.length_cons, Nat.succ.injEq] at hlen
      rw [ih stl hlen]

theorem writeModule_entry (c : Cache) (pid : Pid) (m : Module) (en : CEntry)
    (hen : alookup c.entries pid = some en) :
    alookup (c.writeModule pid m).entries pid = some ⟨m, en.pinned⟩ := by
  unfold Cache.writeModule
  rw [hen]
  exact alookup_aset_self _ _ _

theorem readOrCreate_entry (c : Cache) (pid : Pid) (m : Module) (c1 : Cache)
    (h : (if c.contains pid then c.tryRead pid false else c.create pid) = some (m, c1)) :
    ∃ en, alookup c1.entries pid = some en ∧ en.module = m := by
  by_cases hc : c.contains pid
  · rw [if_pos hc] at h
    obtain ⟨p, hp⟩ := tryRead_entry c pid false m c1 h
    exact ⟨⟨m, p⟩, hp, rfl⟩
  · rw [if_neg hc] at h
    obtain ⟨hen, _⟩ := create_entry c pid m c1 h
    exact ⟨⟨m, false⟩, hen, rfl⟩

theorem mutateResource_view_caches (st : NEL) (pid : Pid) (m : Module) :
    (mutateResource st pid m).view_caches = st.view_caches := by
  unfold mutateResource
  split
  · rfl
  · split
    · rfl
    · rfl

theorem materializeView_congr (st st' : NEL) (d : Device) (pid : Pid)
    (h : st'.view_caches = st.view_caches) :
    materializeView st' d pid = materializeView st d pid := by
  unfold materializeView viewCacheOf
  rw [h]

/-- The same-rank arm of `get`, fully computed. -/
theorem nelGet_sameRank_eq
    (st : NEL) (pid1 pid2 : Pid) (r : Rank) (fids : List Fid) (st3 : NEL) (mod : Module)
    (dcur : Device) (vc : Cache) (mv : Module) (vc1 : Cache)
    (hfut : alookup st.particle_to_futures pid1 = some fids)
    (hr1 : alookup st.particle_to_rank pid1 = some r)
    (hr2 : alookup st.particle_to_rank pid2 = some r)
    (hcsw : contextSwitchModule (sendReg st pid1) pid2 false = (st3, .ok mod))
    (hdev1 : alookup st.particle_to_device pid1 = some dcur)
    (hvc : viewCacheOf st dcur = some vc)
    (hrd : (if vc.contains pid2 then vc.tryRead pid2 false else vc.create pid2) = some (mv, vc1)) :
    nelGet st pid1 pid2 =
      ({ setViewCache st3 dcur (vc1.writeModule pid2 (copyParams mv mod)) with results := aset (setViewCache st3 dcur (vc1.writeModule pid2 (copyParams mv mod))).results st.future_id (.view dcur pid2) },
       .ok ⟨pid1, pid2, st.future_id⟩) := by
  have hsreg := sendReg_eq st pid1 fids hfut
  have hrf := registerFuture_ok { st with future_id := st.future_id + 1 }
    pid1 st.future_id fids hfut
  have hfr := contextSwitchModule_cswFrame (sendReg st pid1) pid2 false
  rw [hcsw] at hfr
  obtain ⟨_, _, _, _, hfr_dev, _, _, hfr_view, _, _, _, _, _⟩ := hfr
  have hr1' : alookup (sendReg st pid1).particle_to_rank pid1 = some r := by
    rw [hsreg]; exact hr1
  have hr2' : alookup (sendReg st pid1).particle_to_rank pid2 = some r := by
    rw [hsreg]; exact hr2
  have hdev3 : alookup st3.particle_to_device pid1 = some dcur := by
    rw [hfr_dev, hsreg]; exact hdev1
  have hvc3 : viewCacheOf st3 dcur = some vc := by
    unfold viewCacheOf
    rw [hfr_view]
    show alookup (sendReg st pid1).view_caches dcur = some vc
    rw [hsreg]
    exact hvc
  unfold nelGet
  simp only [createFutureId]
  rw [show (registerFuture { st with future_id := st.future_id + 1 } pid1 st.future_id) = (sendReg st pid1, .ok ()) from by rw [hrf, hsreg]]
  dsimp only
  rw [hr1', hr2']
  dsimp only
  rw [if_pos rfl]
  rw [hcsw]
  dsimp only
  rw [hdev3]
  dsimp only
  rw [hvc3]
  dsimp only
  rw [hrd]

/-- C2: a same-rank `get(pid_a, pid_b)` returns a view whose
materialized parameter values equal pid_b's resource parameter values at
the time of the call, and any later in-place mutation of pid_b's
resource leaves the already-returned view's materialization unchanged:
the values are frozen at copy time. -/
theorem get_view_frozen_at_copy_time
    (st : NEL) (pid1 pid2 : Pid) (r : Rank) (fids : List Fid) (st3 : NEL) (mod : Module)
    (dcur : Device) (vc : Cache) (mv : Module) (vc1 : Cache)
    (hfut : alookup st.particle_to_futures pid1 = some fids)
    (hr1 : alookup st.particle_to_rank pid1 = some r)
    (hr2 : alookup st.particle_to_rank pid2 = some r)
    (hcsw : contextSwitchModule (sendReg st pid1) pid2 false = (st3, .ok mod))
    (hdev1 : alookup st.particle_to_device pid1 = some dcur)
    (hvc : viewCacheOf st dcur = some vc)
    (hrd : (if vc.contains pid2 then vc.tryRead pid2 false else vc.create pid2) = some (mv, vc1))
    (hlen : mv.length = mod.length) :
    (nelGet st pid1 pid2).2 = .ok ⟨pid1, pid2, st.future_id⟩ ∧
    alookup ((nelGet st pid1 pid2).1).results st.future_id = some (.view dcur pid2) ∧
    (materializeView ((nelGet st pid1 pid2).1) dcur pid2).map (fun m => m.map Param.value) =
      some (mod.map Param.value) ∧
    (∀ mNew, materializeView (mutateResource ((nelGet st pid1 pid2).1) pid2 mNew) dcur pid2 =
      materializeView ((nelGet st pid1 pid2).1) dcur pid2) := by
  have hmain := nelGet_sameRank_eq st pid1 pid2 r fids st3 mod dcur vc mv vc1
    hfut hr1 hr2 hcsw hdev1 hvc hrd
  obtain ⟨en, hen, henm⟩ := readOrCreate_entry vc pid2 mv vc1 hrd
  have hwm := writeModule_entry vc1 pid2 (copyParams mv mod) en hen
  have hmat : materializeView ((nelGet st pid1 pid2).1) dcur pid2 =
      some (copyParams mv mod) := by
    rw [hmain]
    unfold materializeView viewCacheOf
    show (match alookup (aset st3.view_caches dcur (vc1.writeModule pid2 (copyParams mv mod))) dcur with
      | none => none
      | some c => match alookup c.entries pid2 with
        | some e => some e.module
        | none => alookup c.store pid2) = some (copyParams mv mod)
    rw [alookup_aset_self]
    dsimp only
    rw [hwm]
  refine ⟨?_, ?_, ?_, ?_⟩
  · rw [hmain]
  · rw [hmain]
    exact alookup_aset_self _ _ _
  · rw [hmat]
    show some ((copyParams mv mod).map Param.value) = some (mod.map Param.value)
    rw [copyParams_values mv mod hlen]
  · intro mNew
    exact materializeView_congr _ _ dcur pid2 (by rw [mutateResource_view_caches])

/-- C2 witness: on the concrete state `stW`, `get(0, 1)` produces a view
whose values are particle 1's parameter values `[9]` at call time, and
overwriting particle 1's resource with `[100]` afterwards does not
change the materialized view. -/
theorem get_view_frozen_at_copy_time_witness :
    (nelGet stW 0 1).2 = .ok ⟨0, 1, 0⟩ ∧
    alookup ((nelGet stW 0 1).1).results 0 = some (.view 0 1) ∧
    (materializeView ((nelGet stW 0 1).1) 0 1).map (fun m => m.map Param.value) =
      some [(9 : Int)] ∧
    materializeView (mutateResource ((nelGet stW 0 1).1) 1 [⟨100, none⟩]) 0 1 =
      materializeView ((nelGet stW 0 1).1) 0 1 := by
  have h := get_view_frozen_at_copy_time stW 0 1 0 []
    ((contextSwitchModule (sendReg stW 0) 1 false).1) [⟨9, none⟩] 0 viewCacheW
    [⟨0, none⟩]
    { dflt := [⟨0, none⟩], capacity := 2, entries := [(1, ⟨[⟨0, none⟩], false⟩)], store := [(1, [⟨0, none⟩])] }
    (by rfl) (by rfl) (by rfl) (by rfl) (by rfl) (by rfl) (by rfl) (by rfl)
  exact ⟨h.1, h.2.1, h.2.2.1, h.2.2.2 [⟨100, none⟩]⟩

/-! ### C3: buffering and replay inside wait -/

theorem waitGo_char (fid : Fid) :
    ∀ (q : List Msg) (st : NEL) (acc : List Msg) (st1 : NEL) (res : Res) (buf rest : List Msg),
      waitGo fid q st acc = (st1, .ok (some (res, buf, rest))) →
      ∃ c a, q = c ++ a :: rest ∧ isGetAckMsg a = true ∧
        buf = acc ++ (c ++ [a]).filter isBufferedMsg := by
  intro q
  induction q with
  | nil =>
    intro st acc st1 res buf rest h
    simp [waitGo] at h
  | cons m tail ih =>
    intro st acc st1 res buf rest h
    cases m with
    | ReceiveGetAckMSG gfid gpid ps gs =>
      rw [waitGo] at h
      cases hga : dispatchReceiveGetAck st gfid gpid ps gs with
      | mk stg rg =>
        rw [hga] at h
        cases rg with
        | error e => simp at h
        | ok u =>
          cases u
          dsimp only at h
          cases hck : checkResults stg fid with
          | error e => rw [hck] at h; simp at h
          | ok o =>
            rw [hck] at h
            cases o with
            | none =>
              dsimp only at h
              obtain ⟨c, a, hq, hgam, hbuf⟩ := ih _ _ _ _ _ _ h
              refine ⟨.ReceiveGetAckMSG gfid gpid ps gs :: c, a, by rw [hq]; rfl, hgam, ?_⟩
              rw [hbuf]
              simp [isBufferedMsg]
            | some pr =>
              obtain ⟨res2, st2⟩ := pr
              dsimp only at h
              simp only [Prod.mk.injEq, Except.ok.injEq, Option.some.injEq] at h
              obtain ⟨hst, hres, hbuf, hrest⟩ := h
              refine ⟨[], .ReceiveGetAckMSG gfid gpid ps gs, ?_, rfl, ?_⟩
              · rw [hrest]; rfl
              · rw [← hbuf]
                simp [isBufferedMsg]
    | ReceiveFuncMSG a b c d =>
      rw [waitGo] at h
      obtain ⟨c2, a2, hq, hgam, hbuf⟩ := ih _ _ _ _ _ _ h
      refine ⟨.ReceiveFuncMSG a b c d :: c2, a2, by rw [hq]; rfl, hgam, ?_⟩
      rw [hbuf]
      simp [isBufferedMsg]
    | ReceiveFuncPDMSG a b c d =>
      rw [waitGo] at h
      obtain ⟨c2, a2, hq, hgam, hbuf⟩ := ih _ _ _ _ _ _ h
      refine ⟨.ReceiveFuncPDMSG a b c d :: c2, a2, by rw [hq]; rfl, hgam, ?_⟩
      rw [hbuf]
      simp [isBufferedMsg]
    | NodeEvtLoopCleanupMSG =>
      rw [waitGo] at h
      cases hd : nelDispatch st .NodeEvtLoopCleanupMSG with
      | mk st1' d =>
        rw [hd] at h
        cases d with
        | exc e => simp at h
        | cont =>
          obtain ⟨c2, a2, hq, hgam, hbuf⟩ := ih _ _ _ _ _ _ h
          exact ⟨.NodeEvtLoopCleanupMSG :: c2, a2, by rw [hq]; rfl, hgam, by rw [hbuf]; simp [isBufferedMsg]⟩
        | halt =>
          obtain ⟨c2, a2, hq, hgam, hbuf⟩ := ih _ _ _ _ _ _ h
          exact ⟨.NodeEvtLoopCleanupMSG :: c2, a2, by rw [hq]; rfl, hgam, by rw [hbuf]; simp [isBufferedMsg]⟩
      all_goals intro a1 a2 a3 a4 h2
      all_goals exact Msg.noConfusion h2
    | NELBroadcastParticlesMSG p2d =>
      rw [waitGo] at h
      cases hd : nelDispatch st (.NELBroadcastParticlesMSG p2d) with
      | mk st1' d =>
        rw [hd] at h
        cases d with
        | exc e => simp at h
        | cont =>
          obtain ⟨c2, a2, hq, hgam, hbuf⟩ := ih _ _ _ _ _ _ h
          exact ⟨.NELBroadcastParticlesMSG p2d :: c2, a2, by rw [hq]; rfl, hgam, by rw [hbuf]; simp [isBufferedMsg]⟩
        | halt =>
          obtain ⟨c2, a2, hq, hgam, hbuf⟩ := ih _ _ _ _ _ _ h
          exact ⟨.NELBroadcastParticlesMSG p2d :: c2, a2, by rw [hq]; rfl, hgam, by rw [hbuf]; simp [isBufferedMsg]⟩
      all_goals intro a1 a2 a3 a4 h2
      all_goals exact Msg.noConfusion h2
    | NELBroadcastParticlesAckMSG =>
      rw [waitGo] at h
      cases hd : nelDispatch st .NELBroadcastParticlesAckMSG with
      | mk st1' d =>
        rw [hd] at h
        cases d with
        | exc e => simp at h
        | cont =>
          obtain ⟨c2, a2, hq, hgam, hbuf⟩ := ih _ _ _ _ _ _ h
          exact ⟨.NELBroadcastParticlesAckMSG :: c2, a2, by rw [hq]; rfl, hgam, by rw [hbuf]; simp [isBufferedMsg]⟩
        | halt =>
          obtain ⟨c2, a2, hq, hgam, hbuf⟩ := ih _ _ _ _ _ _ h
          exact ⟨.NELBroadcastParticlesAckMSG :: c2, a2, by rw [hq]; rfl, hgam, by rw [hbuf]; simp [isBufferedMsg]⟩
      all_goals intro a1 a2 a3 a4 h2
      all_goals exact Msg.noConfusion h2
    | NELSaveModel pf =>
      rw [waitGo] at h
      cases hd : nelDispatch st (.NELSaveModel pf) with
      | mk st1' d =>
        rw [hd] at h
        cases d with
        | exc e => simp at h
        | cont =>
          obtain ⟨c2, a2, hq, hgam, hbuf⟩ := ih _ _ _ _ _ _ h
          exact ⟨.NELSaveModel pf :: c2, a2, by rw [hq]; rfl, hgam, by rw [hbuf]; simp [isBufferedMsg]⟩
        | halt =>
          obtain ⟨c2, a2, hq, hgam, hbuf⟩ := ih _ _ _ _ _ _ h
          exact ⟨.NELSaveModel pf :: c2, a2, by rw [hq]; rfl, hgam, by rw [hbuf]; simp [isBufferedMsg]⟩
      all_goals intro a1 a2 a3 a4 h2
      all_goals exact Msg.noConfusion h2
    | NELSaveModelAckPDMSG pf =>
      rw [waitGo] at h
      cases hd : nelDispatch st (.NELSaveModelAckPDMSG pf) with
      | mk st1' d =>
        rw [hd] at h
        cases d with
        | exc e => simp at h
        | cont =>
          obtain ⟨c2, a2, hq, hgam, hbuf⟩ := ih _ _ _ _ _ _ h
          exact ⟨.NELSaveModelAckPDMSG pf :: c2, a2, by rw [hq]; rfl, hgam, by rw [hbuf]; simp [isBufferedMsg]⟩
        | halt =>
          obtain ⟨c2, a2, hq, hgam, hbuf⟩ := ih _ _ _ _ _ _ h
          exact ⟨.NELSaveModelAckPDMSG pf :: c2, a2, by rw [hq]; rfl, hgam, by rw [hbuf]; simp [isBufferedMsg]⟩
      all_goals intro a1 a2 a3 a4 h2
      all_goals exact Msg.noConfusion h2
    | ReceiveParticleInitPDMSG dv pd rcv stt =>
      rw [waitGo] at h
      cases hd : nelDispatch st (.ReceiveParticleInitPDMSG dv pd rcv stt) with
      | mk st1' d =>
        rw [hd] at h
        cases d with
        | exc e => simp at h
        | cont =>
          obtain ⟨c2, a2, hq, hgam, hbuf⟩ := ih _ _ _ _ _ _ h
          exact ⟨.ReceiveParticleInitPDMSG dv pd rcv stt :: c2, a2, by rw [hq]; rfl, hgam, by rw [hbuf]; simp [isBufferedMsg]⟩
        | halt =>
          obtain ⟨c2, a2, hq, hgam, hbuf⟩ := ih _ _ _ _ _ _ h
          exact ⟨.ReceiveParticleInitPDMSG dv pd rcv stt :: c2, a2, by rw [hq]; rfl, hgam, by rw [hbuf]; simp [isBufferedMsg]⟩
      all_goals intro a1 a2 a3 a4 h2
      all_goals exact Msg.noConfusion h2
    | ReceiveParticleInitAckPDMSG =>
      rw [waitGo] at h
      cases hd : nelDispatch st .ReceiveParticleInitAckPDMSG with
      | mk st1' d =>
        rw [hd] at h
        cases d with
        | exc e => simp at h
        | cont =>
          obtain ⟨c2, a2, hq, hgam, hbuf⟩ := ih _ _ _ _ _ _ h
          exact ⟨.ReceiveParticleInitAckPDMSG :: c2, a2, by rw [hq]; rfl, hgam, by rw [hbuf]; simp [isBufferedMsg]⟩
        | halt =>
          obtain ⟨c2, a2, hq, hgam, hbuf⟩ := ih _ _ _ _ _ _ h
          exact ⟨.ReceiveParticleInitAckPDMSG :: c2, a2, by rw [hq]; rfl, hgam, by rw [hbuf]; simp [isBufferedMsg]⟩
      all_goals intro a1 a2 a3 a4 h2
      all_goals exact Msg.noConfusion h2
    | ReceiveRegisterPDMSG pd ms fn =>
      rw [waitGo] at h
      cases hd : nelDispatch st (.ReceiveRegisterPDMSG pd ms fn) with
      | mk st1' d =>
        rw [hd] at h
        cases d with
        | exc e => simp at h
        | cont =>
          obtain ⟨c2, a2, hq, hgam, hbuf⟩ := ih _ _ _ _ _ _ h
          exact ⟨.ReceiveRegisterPDMSG pd ms fn :: c2, a2, by rw [hq]; rfl, hgam, by rw [hbuf]; simp [isBufferedMsg]⟩
        | halt =>
          obtain ⟨c2, a2, hq, hgam, hbuf⟩ := ih _ _ _ _ _ _ h
          exact ⟨.ReceiveRegisterPDMSG pd ms fn :: c2, a2, by rw [hq]; rfl, hgam, by rw [hbuf]; simp [isBufferedMsg]⟩
      all_goals intro a1 a2 a3 a4 h2
      all_goals exact Msg.noConfusion h2
    | ReceiveRegisterAckPDMSG =>
      rw [waitGo] at h
      cases hd : nelDispatch st .ReceiveRegisterAckPDMSG with
      | mk st1' d =>
        rw [hd] at h
        cases d with
        | exc e => simp at h
        | cont =>
          obtain ⟨c2, a2, hq, hgam, hbuf⟩ := ih _ _ _ _ _ _ h
          exact ⟨.ReceiveRegisterAckPDMSG :: c2, a2, by rw [hq]; rfl, hgam, by rw [hbuf]; simp [isBufferedMsg]⟩
        | halt =>
          obtain ⟨c2, a2, hq, hgam, hbuf⟩ := ih _ _ _ _ _ _ h
          exact ⟨.ReceiveRegisterAckPDMSG :: c2, a2, by rw [hq]; rfl, hgam, by rw [hbuf]; simp [isBufferedMsg]⟩
      all_goals intro a1 a2 a3 a4 h2
      all_goals exact Msg.noConfusion h2
    | ReceiveFuncAckPDMSG pf rz =>
      rw [waitGo] at h
      cases hd : nelDispatch st (.ReceiveFuncAckPDMSG pf rz) with
      | mk st1' d =>
        rw [hd] at h
        cases d with
        | exc e => simp at h
        | cont =>
          obtain ⟨c2, a2, hq, hgam, hbuf⟩ := ih _ _ _ _ _ _ h
          exact ⟨.ReceiveFuncAckPDMSG pf rz :: c2, a2, by rw [hq]; rfl, hgam, by rw [hbuf]; simp [isBufferedMsg]⟩
        | halt =>
          obtain ⟨c2, a2, hq, hgam, hbuf⟩ := ih _ _ _ _ _ _ h
          exact ⟨.ReceiveFuncAckPDMSG pf rz :: c2, a2, by rw [hq]; rfl, hgam, by rw [hbuf]; simp [isBufferedMsg]⟩
      all_goals intro a1 a2 a3 a4 h2
      all_goals exact Msg.noConfusion h2
    | ReceiveParametersPDMSG pf pd =>
      rw [waitGo] at h
      cases hd : nelDispatch st (.ReceiveParametersPDMSG pf pd) with
      | mk st1' d =>
        rw [hd] at h
        cases d with
        | exc e => simp at h
        | cont =>
          obtain ⟨c2, a2, hq, hgam, hbuf⟩ := ih _ _ _ _ _ _ h
          exact ⟨.ReceiveParametersPDMSG pf pd :: c2, a2, by rw [hq]; rfl, hgam, by rw [hbuf]; simp [isBufferedMsg]⟩
        | halt =>
          obtain ⟨c2, a2, hq, hgam, hbuf⟩ := ih _ _ _ _ _ _ h
          exact ⟨.ReceiveParametersPDMSG pf pd :: c2, a2, by rw [hq]; rfl, hgam, by rw [hbuf]; simp [isBufferedMsg]⟩
      all_goals intro a1 a2 a3 a4 h2
      all_goals exact Msg.noConfusion h2
    | ReceiveParametersAckPDMSG pf ps =>
      rw [waitGo] at h
      cases hd : nelDispatch st (.ReceiveParametersAckPDMSG pf ps) with
      | mk st1' d =>
        rw [hd] at h
        cases d with
        | exc e => simp at h
        | cont =>
          obtain ⟨c2, a2, hq, hgam, hbuf⟩ := ih _ _ _ _ _ _ h
          exact ⟨.ReceiveParametersAckPDMSG pf ps :: c2, a2, by rw [hq]; rfl, hgam, by rw [hbuf]; simp [isBufferedMsg]⟩
        | halt =>
          obtain ⟨c2, a2, hq, hgam, hbuf⟩ := ih _ _ _ _ _ _ h
          exact ⟨.ReceiveParametersAckPDMSG pf ps :: c2, a2, by rw [hq]; rfl, hgam, by rw [hbuf]; simp [isBufferedMsg]⟩
      all_goals intro a1 a2 a3 a4 h2
      all_goals exact Msg.noConfusion h2
    | ReceiveGetMSG pf pc pd =>
      rw [waitGo] at h
      cases hd : nelDispatch st (.ReceiveGetMSG pf pc pd) with
      | mk st1' d =>
        rw [hd] at h
        cases d with
        | exc e => simp at h
        | cont =>
          obtain ⟨c2, a2, hq, hgam, hbuf⟩ := ih _ _ _ _ _ _ h
          exact ⟨.ReceiveGetMSG pf pc pd :: c2, a2, by rw [hq]; rfl, hgam, by rw [hbuf]; simp [isBufferedMsg]⟩
        | halt =>
          obtain ⟨c2, a2, hq, hgam, hbuf⟩ := ih _ _ _ _ _ _ h
          exact ⟨.ReceiveGetMSG pf pc pd :: c2, a2, by rw [hq]; rfl, hgam, by rw [hbuf]; simp [isBufferedMsg]⟩
      all_goals intro a1 a2 a3 a4 h2
      all_goals exact Msg.noConfusion h2

/-- C3 (amended): while waiting on a future, a pulled remote-get
acknowledgment is handled inline and the result check retried — the wait
resolves either at its initial check or right after such an
acknowledgment; a pulled `ReceiveFuncMSG` / `ReceiveFuncPDMSG` remote
invocation request is buffered rather than dispatched; every other
message kind — including function acknowledgments — is dispatched
immediately through the normal dispatch routine; and once the awaited
result is obtained, the buffered messages — exactly the buffered-kind
messages of the consumed initial segment, in arrival order — are replayed through
the dispatch routine. -/
theorem wait_buffers_requests_and_replays_in_order
    (fid : Fid) (st st1 : NEL) (q buf rest : List Msg) (res : Res)
    (hw : nelWait fid st q = (st1, .ok (some (res, buf, rest)))) :
    (∃ consumed, q = consumed ++ rest ∧ buf = consumed.filter isBufferedMsg ∧
      (consumed = [] ∨ ∃ c a, consumed = c ++ [a] ∧ isGetAckMsg a = true)) ∧
    nelWaitFull fid st q =
      (match dispatchList st1 buf with
       | (st2, some e) => (st2, .error e)
       | (st2, none) => (st2, .ok (some (res, rest)))) := by
  constructor
  · unfold nelWait at hw
    cases hc : checkResults st fid with
    | error e => rw [hc] at hw; simp at hw
    | ok o =>
      rw [hc] at hw
      cases o with
      | some pr =>
        obtain ⟨res0, st0⟩ := pr
        dsimp only at hw
        simp only [Prod.mk.injEq, Except.ok.injEq, Option.some.injEq] at hw
        obtain ⟨hst, hres, hbuf, hrest⟩ := hw
        refine ⟨[], by rw [hrest]; rfl, by rw [← hbuf]; rfl, Or.inl rfl⟩
      | none =>
        dsimp only at hw
        obtain ⟨c, a, hq, hgam, hbuf⟩ := waitGo_char fid q st [] st1 res buf rest hw
        refine ⟨c ++ [a], ?_, ?_, Or.inr ⟨c, a, rfl, hgam⟩⟩
        · rw [hq]
          simp
        · rw [hbuf]
          simp
  · unfold nelWaitFull
    rw [hw]

/-- The concrete event loop used by the C3 scenario: future 0 is
pending for particle 0; particles 0 and 1 are local on device 0. -/
def stC3 : NEL :=
  { rank := 0, out_queue := [], in_queues := [],
    particle_to_rank := [(0, 0), (1, 0)],
    particle_to_device := [(0, 0), (1, 0)],
    particle_to_state := [(0, 0), (1, 0)],
    hooks := [(0, []), (1, [])],
    device_to_pthread := [],
    particle_caches := [(0, cacheW)],
    view_caches := [(0, viewCacheW)],
    future_id := 1,
    particle_to_futures := [(0, [0]), (1, [])],
    future_to_particle := [(0, 0)],
    results := [],
    forwardFn := fun _ _ _ => .ok ⟨0, none⟩ }

/-- The concrete inbound queue used by the C3 scenario: a function
acknowledgment, a remote invocation request, then the remote-get
acknowledgment that resolves future 0. -/
def qC3 : List Msg :=
  [.ReceiveFuncAckPDMSG (0, 5) ⟨1, none⟩,
   .ReceiveFuncMSG (0, 9) 1 "nosuch" [],
   .ReceiveGetAckMSG 0 1 [3] [none]]

/-- C3 counterexample: on the concrete state `stC3`, the wait pulls a
function acknowledgment (`ReceiveFuncAckPDMSG`) before the resolving
get-acknowledgment, yet the buffer it returns holds only the
`ReceiveFuncMSG` request: the acknowledgment was passed to `_dispatch`
immediately (a no-op there) instead of being buffered and replayed, so
the claim that function acknowledgments pulled while waiting are
buffered is false. -/
theorem wait_does_not_buffer_function_acks :
    (nelWait 0 stC3 qC3).2 =
      .ok (some (.view 0 1, [.ReceiveFuncMSG (0, 9) 1 "nosuch" []], [])) ∧
    (Msg.ReceiveFuncAckPDMSG (0, 5) ⟨1, none⟩) ∉
      ([Msg.ReceiveFuncMSG (0, 9) 1 "nosuch" []] : List Msg) := by
  refine ⟨rfl, ?_⟩
  intro hmem
  exact Msg.noConfusion (List.mem_singleton.mp hmem)

/-- C3 witness: the amended characterization applied to the concrete
scenario `stC3` / `qC3`: the consumed initial segment is the whole queue, ending
at the get-acknowledgment, and the replayed buffer is exactly its one
buffered-kind message. -/
theorem wait_buffers_requests_witness :
    (∃ consumed, qC3 = consumed ++ [] ∧
      [Msg.ReceiveFuncMSG (0, 9) 1 "nosuch" []] = consumed.filter isBufferedMsg ∧
      (consumed = [] ∨ ∃ c a, consumed = c ++ [a] ∧ isGetAckMsg a = true)) ∧
    nelWaitFull 0 stC3 qC3 =
      (match dispatchList ((nelWait 0 stC3 qC3).1) [Msg.ReceiveFuncMSG (0, 9) 1 "nosuch" []] with
       | (st2, some e) => (st2, .error e)
       | (st2, none) => (st2, .ok (some (.view 0 1, [])))) := by
  have h := wait_buffers_requests_and_replays_in_order 0 stC3 ((nelWait 0 stC3 qC3).1)
    qC3 [Msg.ReceiveFuncMSG (0, 9) 1 "nosuch" []] [] (.view 0 1) (by rfl)
  exact h

/-- C6 witness: on the concrete state `stW` (particle 1 handles only
`"op"`), inbound invocation messages named `"nosuch"` are silently
dropped by dispatch, while a same-rank send of `"nosuch"` raises
`KeyError`. -/
theorem unknown_op_silently_dropped_witness :
    nelDispatch stW (.ReceiveFuncMSG (0, 0) 1 "nosuch" []) = (stW, .cont) ∧
    nelDispatch stW (.ReceiveFuncPDMSG (0, 0) 1 "nosuch" []) = (stW, .cont) ∧
    (nelSend stW pW 0 1 "nosuch" []).2 = .error .keyError := by
  have h := unknown_op_silently_dropped_in_dispatch_not_send stW (0, 0) 1 "nosuch" []
    [("op", handlerW)] (by rfl) (by rfl)
  exact ⟨h.1, h.2.1, h.2.2 pW 0 [] 0 ((contextSwitchModule (sendReg stW 0) 1 false).1)
    [⟨9, none⟩] (by rfl) (by rfl) (by rfl) (by rfl)⟩

end PusH
